import Mathlib

set_option maxRecDepth 8192

/-!
Shallow embedding of the readiness-driven file-distribution server
(`05_stream_mutliplexing/server/server-poll.c` together with the
`server-common-multiplexing.h` protocol code it includes, the epoll
variant of the same event loop, and the TCP client
`05_tcp_multiplexing/client/client.c`).

System calls (`write`, `pread`, `recv`, `poll`, `accept`, `epoll_ctl`)
are modelled by passing their observable outcomes as explicit
parameters: a `write`/`pread` result is the `size_t` value the call
returned (`SIZE_MAX` encodes the C value `(size_t)-1`, i.e. a return
of `-1`), together with the value of `errno` observed after the call
where the source consults it.  File contents are `List Nat` (byte
values); the descriptor-based positioned read `pread(fd, buf, n, off)`
on such a file returns `(file.drop off).take n`.  Closing a descriptor
always succeeds in this model.
-/

/-- Block size of the data-transfer protocol (`TRANSFER_BLOCK_SIZE` in
`server-common-multiplexing.h`). -/
def TRANSFER_BLOCK_SIZE : Nat := 1024

/-- The C value `(size_t)-1` on a 64-bit platform: the error return of
`write`/`pread` after conversion to `size_t`. -/
def SIZE_MAX : Nat := 2 ^ 64 - 1

/-- Linux `errno` value for a would-block result on a non-blocking
descriptor (`EAGAIN`, equal to `EWOULDBLOCK`). -/
def EAGAIN : Nat := 11

/-- Exit status used by all fatal error paths (`EXIT_FAILURE`). -/
def EXIT_FAILURE : Nat := 1

/-- Exit status of a successful run (`EXIT_SUCCESS`). -/
def EXIT_SUCCESS : Nat := 0

/-- Per-connection protocol state (`TRANSFER_STATE` in
`server-common-multiplexing.h`): `CONNECTION_EMPTY` is the spec's
`Idle`, `SEND_FILE_SIZE` is `SendingSize`, `SEND_DATA_BLOCK` is
`SendingData`, `TRANSFER_FINISHED` is `Finished`. -/
inductive TRANSFER_STATE where
  | CONNECTION_EMPTY
  | SEND_FILE_SIZE
  | SEND_DATA_BLOCK
  | TRANSFER_FINISHED
deriving DecidableEq, Repr

/-- Server descriptor (`FILESHARE_SERVER`): the contents of the source
file stand in for the descriptor `src_file_fd`; `src_file_size` is the
length obtained from `fstat` at startup. -/
structure FILESHARE_SERVER where
  src_file : List Nat
  src_file_size : Nat
  listen_sock_fd : Int
deriving DecidableEq, Repr

/-- Connection record (`FILESHARE_CONNECTION`). -/
structure FILESHARE_CONNECTION where
  client_sock_fd : Int
  src_file_offset : Nat
  state : TRANSFER_STATE
deriving DecidableEq, Repr

/-- Connection record as produced by `calloc` in `main` before the
`state = CONNECTION_EMPTY` initialisation loop runs (all fields 0),
and after it (state set to `CONNECTION_EMPTY`, which is variant 0
anyway). -/
def cdef : FILESHARE_CONNECTION :=
  { client_sock_fd := 0, src_file_offset := 0, state := .CONNECTION_EMPTY }

/-- One `SEND_FILE_SIZE` advance (`server_send_file_size`): the 8-byte
big-endian length is written with a single `write`; `bytes_written` is
the `size_t` the call returned and `errno` the error code observed
afterwards.  The source compares `bytes_written` against
`sizeof(file_size) = 8` and consults `errno` only for `EAGAIN`. -/
def server_send_file_size (_server : FILESHARE_SERVER) (conn : FILESHARE_CONNECTION)
    (bytes_written : Nat) (errno : Nat) : FILESHARE_CONNECTION × Bool :=
  if bytes_written ≠ 8 then
    if errno = EAGAIN then
      (conn, true)
    else
      ({ conn with state := .TRANSFER_FINISHED }, false)
  else
    ({ conn with src_file_offset := 0, state := .SEND_DATA_BLOCK }, true)

/-- One `SEND_DATA_BLOCK` advance (`server_send_file_block`):
`bytes_read` is the `size_t` returned by
`pread(src_file_fd, buf, TRANSFER_BLOCK_SIZE, src_file_offset)` and
`bytes_written` the `size_t` returned by the following
`write(client_sock_fd, buf, bytes_read)`.  The `errno` observed after
the write is passed as well but, unlike in `server_send_file_size`,
the source never reads it in this function. -/
def server_send_file_block (server : FILESHARE_SERVER) (conn : FILESHARE_CONNECTION)
    (bytes_read : Nat) (bytes_written : Nat) (_errno : Nat) : FILESHARE_CONNECTION × Bool :=
  if bytes_read = SIZE_MAX ∨ (bytes_read = 0 ∧ conn.src_file_offset ≠ server.src_file_size) then
    ({ conn with state := .TRANSFER_FINISHED }, false)
  else if bytes_written = SIZE_MAX ∨ bytes_written ≠ bytes_read then
    ({ conn with state := .TRANSFER_FINISHED }, false)
  else
    let offset := conn.src_file_offset + bytes_written
    if offset = server.src_file_size then
      ({ conn with src_file_offset := offset, state := .TRANSFER_FINISHED }, false)
    else
      ({ conn with src_file_offset := offset }, true)

/-- POSIX `pread` on a regular file modelled as a byte list: reading
`count` bytes at `offset` returns the available bytes, at most
`count`. -/
def pread_file (file : List Nat) (count offset : Nat) : List Nat :=
  (file.drop offset).take count

--===================================================================
-- Basic facts about the two protocol advances
--===================================================================

/-- C1.  The claim as stated is false: `server_send_file_block` never
consults `errno`, so a would-block data-block write (`write` returned
`(size_t)-1` with `errno = EAGAIN`) is handled by the generic failure
branch.  Concrete input: file of 3 bytes, connection in
`SEND_DATA_BLOCK` at offset 0, `pread` returned 3 bytes, `write`
returned `(size_t)-1` with `errno = EAGAIN`.  The claim predicts state
`SEND_DATA_BLOCK` (unchanged) and result `true`; the code moves the
connection to `TRANSFER_FINISHED` and returns `false`. -/
theorem C1_would_block_counterexample :
    (server_send_file_block ⟨[1, 2, 3], 3, 0⟩ ⟨5, 0, .SEND_DATA_BLOCK⟩ 3 SIZE_MAX EAGAIN).1.state
        = .TRANSFER_FINISHED ∧
    (server_send_file_block ⟨[1, 2, 3], 3, 0⟩ ⟨5, 0, .SEND_DATA_BLOCK⟩ 3 SIZE_MAX EAGAIN).2
        = false := by
  decide

/-- C1, amended.  A would-block write result is tolerated only by the
size write: `server_send_file_size` leaves the connection record
entirely unchanged and reports it alive when `write` returns
`(size_t)-1` with `errno = EAGAIN`.  On a data-block write the same
outcome is a per-connection error: provided the preceding `pread`
succeeded, `server_send_file_block` moves the state to
`TRANSFER_FINISHED` (offset unchanged) and reports the connection
dead. -/
theorem C1_would_block_amended (server : FILESHARE_SERVER) (conn : FILESHARE_CONNECTION)
    (br : Nat) (hbr : br ≠ SIZE_MAX)
    (hbr0 : ¬(br = 0 ∧ conn.src_file_offset ≠ server.src_file_size)) :
    server_send_file_size server conn SIZE_MAX EAGAIN = (conn, true) ∧
    server_send_file_block server conn br SIZE_MAX EAGAIN =
      ({ conn with state := .TRANSFER_FINISHED }, false) := by
  have h8 : SIZE_MAX ≠ 8 := by decide
  constructor
  · simp [server_send_file_size, h8]
  · rw [server_send_file_block, if_neg (by tauto), if_pos (Or.inl rfl)]

/-- C1, witness for the amended statement at a concrete input. -/
theorem C1_would_block_witness :
    server_send_file_size ⟨[], 5, 0⟩ ⟨4, 2, .SEND_DATA_BLOCK⟩ SIZE_MAX EAGAIN
        = (⟨4, 2, .SEND_DATA_BLOCK⟩, true) ∧
    server_send_file_block ⟨[], 5, 0⟩ ⟨4, 2, .SEND_DATA_BLOCK⟩ 3 SIZE_MAX EAGAIN
        = (⟨4, 2, .TRANSFER_FINISHED⟩, false) :=
  C1_would_block_amended ⟨[], 5, 0⟩ ⟨4, 2, .SEND_DATA_BLOCK⟩ 3 (by decide) (by decide)

/-- C4.  The claim as stated is false: a short size write does not, by
itself, leave the state unchanged — the source decides on retry purely
by `errno = EAGAIN`.  Concrete input: connection in `SEND_FILE_SIZE`,
`write` returned 4 (a short write) with `errno = 0`.  The claim
predicts an unchanged state and a retry; the code moves the connection
to `TRANSFER_FINISHED` and returns `false`. -/
theorem C4_short_write_counterexample :
    (server_send_file_size ⟨[], 9, 0⟩ ⟨4, 0, .SEND_FILE_SIZE⟩ 4 0).1.state
        = .TRANSFER_FINISHED ∧
    (server_send_file_size ⟨[], 9, 0⟩ ⟨4, 0, .SEND_FILE_SIZE⟩ 4 0).2 = false := by
  decide

/-- C4, amended.  One `SEND_FILE_SIZE` advance: a full 8-byte write
moves the connection to `SEND_DATA_BLOCK` with offset 0 and reports it
alive; an incomplete write (short or failed) with `errno = EAGAIN`
leaves the record unchanged (retried on the next readiness event); an
incomplete write with any other `errno` moves the connection to
`TRANSFER_FINISHED` and reports a local, per-connection failure. -/
theorem C4_send_size_amended (server : FILESHARE_SERVER) (conn : FILESHARE_CONNECTION)
    (bw er : Nat) :
    (bw = 8 → server_send_file_size server conn bw er =
      ({ conn with src_file_offset := 0, state := .SEND_DATA_BLOCK }, true)) ∧
    (bw ≠ 8 → er = EAGAIN → server_send_file_size server conn bw er = (conn, true)) ∧
    (bw ≠ 8 → er ≠ EAGAIN → server_send_file_size server conn bw er =
      ({ conn with state := .TRANSFER_FINISHED }, false)) := by
  refine ⟨fun h => ?_, fun h he => ?_, fun h he => ?_⟩
  · simp [server_send_file_size, h]
  · simp [server_send_file_size, h, he]
  · simp [server_send_file_size, h, he]

/-- C4, witness for the amended statement at concrete inputs. -/
theorem C4_send_size_witness :
    server_send_file_size ⟨[], 9, 0⟩ ⟨4, 7, .SEND_FILE_SIZE⟩ 8 0
        = (⟨4, 0, .SEND_DATA_BLOCK⟩, true) ∧
    server_send_file_size ⟨[], 9, 0⟩ ⟨4, 7, .SEND_FILE_SIZE⟩ SIZE_MAX EAGAIN
        = (⟨4, 7, .SEND_FILE_SIZE⟩, true) ∧
    server_send_file_size ⟨[], 9, 0⟩ ⟨4, 7, .SEND_FILE_SIZE⟩ 2 5
        = (⟨4, 7, .TRANSFER_FINISHED⟩, false) :=
  ⟨(C4_send_size_amended ⟨[], 9, 0⟩ ⟨4, 7, .SEND_FILE_SIZE⟩ 8 0).1 rfl,
   (C4_send_size_amended ⟨[], 9, 0⟩ ⟨4, 7, .SEND_FILE_SIZE⟩ SIZE_MAX EAGAIN).2.1
     (by decide) rfl,
   (C4_send_size_amended ⟨[], 9, 0⟩ ⟨4, 7, .SEND_FILE_SIZE⟩ 2 5).2.2
     (by decide) (by decide)⟩

/-- C9.  For a connection dispatched in its proper state, each advance
returns `false` exactly when the connection's state after the call is
`TRANSFER_FINISHED`; in particular natural completion (the offset
reaching the file size with all syscalls succeeding) sets
`TRANSFER_FINISHED` and returns `false` through the same return value
the event loop uses to close failed connections. -/
theorem C9_false_iff_finished (server : FILESHARE_SERVER)
    (conn1 conn2 : FILESHARE_CONNECTION) (bw er br bw2 er2 : Nat)
    (h1 : conn1.state = .SEND_FILE_SIZE) (h2 : conn2.state = .SEND_DATA_BLOCK) :
    ((server_send_file_size server conn1 bw er).2 = false ↔
      (server_send_file_size server conn1 bw er).1.state = .TRANSFER_FINISHED) ∧
    ((server_send_file_block server conn2 br bw2 er2).2 = false ↔
      (server_send_file_block server conn2 br bw2 er2).1.state = .TRANSFER_FINISHED) ∧
    (br ≠ SIZE_MAX → ¬(br = 0 ∧ conn2.src_file_offset ≠ server.src_file_size) →
      bw2 = br → bw2 ≠ SIZE_MAX → conn2.src_file_offset + bw2 = server.src_file_size →
      server_send_file_block server conn2 br bw2 er2 =
        ({ conn2 with src_file_offset := conn2.src_file_offset + bw2,
                      state := .TRANSFER_FINISHED }, false)) := by
  refine ⟨?_, ?_, fun ha hb hc hd he => ?_⟩
  · unfold server_send_file_size
    split_ifs <;> simp [h1]
  · simp only [server_send_file_block]
    split_ifs <;> simp [h2]
  · rw [server_send_file_block, if_neg (by tauto), if_neg (by tauto)]
    simp [he]

/-- C9, witness at a concrete input: a connection one byte short of a
5-byte file completes naturally. -/
theorem C9_false_iff_finished_witness :
    ((server_send_file_size ⟨[], 5, 0⟩ ⟨3, 0, .SEND_FILE_SIZE⟩ 8 0).2 = false ↔
      (server_send_file_size ⟨[], 5, 0⟩ ⟨3, 0, .SEND_FILE_SIZE⟩ 8 0).1.state
        = .TRANSFER_FINISHED) ∧
    ((server_send_file_block ⟨[], 5, 0⟩ ⟨3, 4, .SEND_DATA_BLOCK⟩ 1 1 0).2 = false ↔
      (server_send_file_block ⟨[], 5, 0⟩ ⟨3, 4, .SEND_DATA_BLOCK⟩ 1 1 0).1.state
        = .TRANSFER_FINISHED) ∧
    (1 ≠ SIZE_MAX → ¬(1 = 0 ∧ 4 ≠ 5) → 1 = 1 → 1 ≠ SIZE_MAX → 4 + 1 = 5 →
      server_send_file_block ⟨[], 5, 0⟩ ⟨3, 4, .SEND_DATA_BLOCK⟩ 1 1 0 =
        (⟨3, 4 + 1, .TRANSFER_FINISHED⟩, false)) :=
  C9_false_iff_finished ⟨[], 5, 0⟩ ⟨3, 0, .SEND_FILE_SIZE⟩ ⟨3, 4, .SEND_DATA_BLOCK⟩
    8 0 1 1 0 rfl rfl

--===================================================================
-- Offset evolution across successive SEND_DATA_BLOCK advances (C3)
--===================================================================

/-- Offsets observed after each successful (alive-returning)
`server_send_file_block` advance, for a given sequence of
`(bytes_read, bytes_written, errno)` syscall outcomes; the trace stops
at the first advance that reports the connection dead, as the event
loop then closes it. -/
def successful_offsets (server : FILESHARE_SERVER) :
    FILESHARE_CONNECTION → List (Nat × Nat × Nat) → List Nat
  | _, [] => []
  | conn, (br, bw, er) :: rest =>
    let r := server_send_file_block server conn br bw er
    if r.2 then r.1.src_file_offset :: successful_offsets server r.1 rest else []

/-- Final connection record after a sequence of `server_send_file_block`
advances with the given syscall outcomes (stopping once an advance
reports the connection dead). -/
def run_conn (server : FILESHARE_SERVER) :
    FILESHARE_CONNECTION → List (Nat × Nat × Nat) → FILESHARE_CONNECTION
  | conn, [] => conn
  | conn, (br, bw, er) :: rest =>
    let r := server_send_file_block server conn br bw er
    if r.2 then run_conn server r.1 rest else r.1

/-- The `pread` outcomes of a run are consistent with the source file:
each read returns either the error value or at most the bytes that
remain between the current offset and the file size (always true of
`pread` on a regular file whose size was measured at startup). -/
inductive ConsistentPreads (server : FILESHARE_SERVER) :
    FILESHARE_CONNECTION → List (Nat × Nat × Nat) → Prop
  | nil (conn : FILESHARE_CONNECTION) : ConsistentPreads server conn []
  | cons (conn : FILESHARE_CONNECTION) (br bw er : Nat) (rest : List (Nat × Nat × Nat)) :
      (br = SIZE_MAX ∨ conn.src_file_offset + br ≤ server.src_file_size) →
      ConsistentPreads server (server_send_file_block server conn br bw er).1 rest →
      ConsistentPreads server conn ((br, bw, er) :: rest)

/-- The run encounters no read or write failure: every `pread` succeeds
(and is non-empty unless the offset already reached the size) and every
`write` transfers exactly the bytes read. -/
inductive FaultFree (server : FILESHARE_SERVER) :
    FILESHARE_CONNECTION → List (Nat × Nat × Nat) → Prop
  | nil (conn : FILESHARE_CONNECTION) : FaultFree server conn []
  | cons (conn : FILESHARE_CONNECTION) (br bw er : Nat) (rest : List (Nat × Nat × Nat)) :
      br ≠ SIZE_MAX →
      ¬(br = 0 ∧ conn.src_file_offset ≠ server.src_file_size) →
      bw = br →
      FaultFree server (server_send_file_block server conn br bw er).1 rest →
      FaultFree server conn ((br, bw, er) :: rest)



lemma send_file_block_alive (server : FILESHARE_SERVER) (conn : FILESHARE_CONNECTION)
    (br bw er : Nat)
    (h : (server_send_file_block server conn br bw er).2 = true) :
    (server_send_file_block server conn br bw er).1 =
      { conn with src_file_offset := conn.src_file_offset + bw } ∧
    bw = br ∧ br ≠ SIZE_MAX ∧ 0 < bw ∧
    ¬(br = 0 ∧ conn.src_file_offset ≠ server.src_file_size) ∧
    conn.src_file_offset + bw ≠ server.src_file_size := by
  simp only [server_send_file_block] at h ⊢
  split_ifs at h ⊢ with h1 h2 h3
  have hbwbr : bw = br := by tauto
  have hbrM : br ≠ SIZE_MAX := fun hx => h1 (Or.inl hx)
  have hpos : 0 < bw := by
    rcases Nat.eq_zero_or_pos bw with hz | hp
    · exfalso
      have hbr0 : br = 0 := by omega
      have hos : conn.src_file_offset = server.src_file_size := by
        by_contra hne
        exact h1 (Or.inr ⟨hbr0, hne⟩)
      exact h3 (by omega)
    · exact hp
  exact ⟨rfl, hbwbr, hbrM, hpos, fun hx => h1 (Or.inr hx), h3⟩

lemma send_file_block_dead (server : FILESHARE_SERVER) (conn : FILESHARE_CONNECTION)
    (br bw er : Nat)
    (h : (server_send_file_block server conn br bw er).2 = false) :
    (server_send_file_block server conn br bw er).1.state = .TRANSFER_FINISHED ∧
    ((server_send_file_block server conn br bw er).1.src_file_offset = conn.src_file_offset ∨
     ((server_send_file_block server conn br bw er).1.src_file_offset = server.src_file_size ∧
      (server_send_file_block server conn br bw er).1.src_file_offset
        = conn.src_file_offset + bw)) ∧
    (br ≠ SIZE_MAX → ¬(br = 0 ∧ conn.src_file_offset ≠ server.src_file_size) → bw = br →
      (server_send_file_block server conn br bw er).1.src_file_offset = server.src_file_size) := by
  simp only [server_send_file_block] at h ⊢
  split_ifs at h ⊢ with h1 h2 h3
  · refine ⟨rfl, Or.inl rfl, ?_⟩
    intro f1 f2 f3
    tauto
  · refine ⟨rfl, Or.inl rfl, ?_⟩
    intro f1 f2 f3
    rcases h2 with h2 | h2 <;> omega
  · exact ⟨rfl, Or.inr ⟨h3, rfl⟩, fun _ _ _ => h3⟩

lemma successful_offsets_cons_true (server : FILESHARE_SERVER) (conn : FILESHARE_CONNECTION)
    (br bw er : Nat) (rest : List (Nat × Nat × Nat))
    (h : (server_send_file_block server conn br bw er).2 = true) :
    successful_offsets server conn ((br, bw, er) :: rest) =
      (server_send_file_block server conn br bw er).1.src_file_offset ::
        successful_offsets server (server_send_file_block server conn br bw er).1 rest := by
  simp [successful_offsets, h]

lemma successful_offsets_cons_false (server : FILESHARE_SERVER) (conn : FILESHARE_CONNECTION)
    (br bw er : Nat) (rest : List (Nat × Nat × Nat))
    (h : (server_send_file_block server conn br bw er).2 = false) :
    successful_offsets server conn ((br, bw, er) :: rest) = [] := by
  simp [successful_offsets, h]

lemma run_conn_cons_true (server : FILESHARE_SERVER) (conn : FILESHARE_CONNECTION)
    (br bw er : Nat) (rest : List (Nat × Nat × Nat))
    (h : (server_send_file_block server conn br bw er).2 = true) :
    run_conn server conn ((br, bw, er) :: rest) =
      run_conn server (server_send_file_block server conn br bw er).1 rest := by
  simp [run_conn, h]

lemma run_conn_cons_false (server : FILESHARE_SERVER) (conn : FILESHARE_CONNECTION)
    (br bw er : Nat) (rest : List (Nat × Nat × Nat))
    (h : (server_send_file_block server conn br bw er).2 = false) :
    run_conn server conn ((br, bw, er) :: rest) =
      (server_send_file_block server conn br bw er).1 := by
  simp [run_conn, h]

/-- C3.  Across successive `SEND_DATA_BLOCK` advances of one connection
the offsets observed after each alive-returning advance are strictly
increasing and never exceed the file size, the final offset never
exceeds the file size, and a connection that reaches
`TRANSFER_FINISHED` without any read/write failure has final offset
equal to the file size. -/
theorem C3_offsets_strictly_increasing (server : FILESHARE_SERVER)
    (conn : FILESHARE_CONNECTION) (outs : List (Nat × Nat × Nat))
    (hstate : conn.state = .SEND_DATA_BLOCK)
    (hoff : conn.src_file_offset ≤ server.src_file_size)
    (hcons : ConsistentPreads server conn outs) :
    List.Chain (· < ·) conn.src_file_offset (successful_offsets server conn outs) ∧
    (∀ o ∈ successful_offsets server conn outs, o ≤ server.src_file_size) ∧
    (run_conn server conn outs).src_file_offset ≤ server.src_file_size ∧
    (FaultFree server conn outs →
      (run_conn server conn outs).state = .TRANSFER_FINISHED →
      (run_conn server conn outs).src_file_offset = server.src_file_size) := by
  induction outs generalizing conn with
  | nil =>
    refine ⟨List.Chain.nil, by simp [successful_offsets], ?_, ?_⟩
    · simpa [run_conn] using hoff
    · intro _ hfin
      rw [run_conn, hstate] at hfin
      simp at hfin
  | cons head rest ih =>
    obtain ⟨br, bw, er⟩ := head
    cases hcons with
    | cons _ _ _ _ _ hc hcrest =>
      cases hok : (server_send_file_block server conn br bw er).2 with
      | true =>
        obtain ⟨hc1, hbwbr, hbrM, hpos, -, hne⟩ :=
          send_file_block_alive server conn br bw er hok
        have hle : conn.src_file_offset + bw ≤ server.src_file_size := by
          rcases hc with hc | hc
          · exact absurd hc hbrM
          · omega
        have hstate2 : (server_send_file_block server conn br bw er).1.state
            = .SEND_DATA_BLOCK := by
          rw [hc1]
          exact hstate
        have hoff2 : (server_send_file_block server conn br bw er).1.src_file_offset
            = conn.src_file_offset + bw := by
          rw [hc1]
        obtain ⟨ch, bnd, rn, ff⟩ := ih _ hstate2 (by omega) hcrest
        rw [successful_offsets_cons_true server conn br bw er rest hok,
            run_conn_cons_true server conn br bw er rest hok]
        refine ⟨List.Chain.cons (by omega) ch, ?_, rn, ?_⟩
        · intro o ho
          rcases List.mem_cons.mp ho with rfl | ho
          · omega
          · exact bnd o ho
        · intro hff hfin
          cases hff with
          | cons _ _ _ _ _ f1 f2 f3 hfrest =>
            exact ff hfrest hfin
      | false =>
        obtain ⟨hfin1, hoffs, hcomplete⟩ := send_file_block_dead server conn br bw er hok
        rw [successful_offsets_cons_false server conn br bw er rest hok,
            run_conn_cons_false server conn br bw er rest hok]
        refine ⟨List.Chain.nil, by simp, ?_, ?_⟩
        · rcases hoffs with ho | ho
          · omega
          · omega
        · intro hff _
          cases hff with
          | cons _ _ _ _ _ f1 f2 f3 hfrest =>
            exact hcomplete f1 f2 f3

/-- C3, witness: a 1025-byte file sent in a full block and a final
1-byte block. -/
theorem C3_offsets_witness :
    List.Chain (· < ·) 0
      (successful_offsets ⟨[], 1025, 0⟩ ⟨7, 0, .SEND_DATA_BLOCK⟩
        [(1024, 1024, 0), (1, 1, 0)]) ∧
    (∀ o ∈ successful_offsets ⟨[], 1025, 0⟩ ⟨7, 0, .SEND_DATA_BLOCK⟩
        [(1024, 1024, 0), (1, 1, 0)], o ≤ (1025 : Nat)) ∧
    (run_conn ⟨[], 1025, 0⟩ ⟨7, 0, .SEND_DATA_BLOCK⟩
        [(1024, 1024, 0), (1, 1, 0)]).src_file_offset ≤ 1025 ∧
    (FaultFree ⟨[], 1025, 0⟩ ⟨7, 0, .SEND_DATA_BLOCK⟩ [(1024, 1024, 0), (1, 1, 0)] →
      (run_conn ⟨[], 1025, 0⟩ ⟨7, 0, .SEND_DATA_BLOCK⟩
          [(1024, 1024, 0), (1, 1, 0)]).state = .TRANSFER_FINISHED →
      (run_conn ⟨[], 1025, 0⟩ ⟨7, 0, .SEND_DATA_BLOCK⟩
          [(1024, 1024, 0), (1, 1, 0)]).src_file_offset = 1025) :=
  C3_offsets_strictly_increasing ⟨[], 1025, 0⟩ ⟨7, 0, .SEND_DATA_BLOCK⟩
    [(1024, 1024, 0), (1, 1, 0)] rfl (by decide)
    (by
      refine ConsistentPreads.cons _ _ _ _ _ (Or.inr (by decide)) ?_
      refine ConsistentPreads.cons _ _ _ _ _ (Or.inr (by decide)) ?_
      exact ConsistentPreads.nil _)
--===================================================================
-- Wire protocol round trip (C2)
--===================================================================

/-- Byte-level meaning of `htobe64(server->src_file_size)` as written
to the socket by `server_send_file_size`: the 8 bytes of the 64-bit
value in big-endian order. -/
def htobe64_bytes (n : Nat) : List Nat :=
  [n / 2 ^ 56 % 256, n / 2 ^ 48 % 256, n / 2 ^ 40 % 256, n / 2 ^ 32 % 256,
   n / 2 ^ 24 % 256, n / 2 ^ 16 % 256, n / 2 ^ 8 % 256, n % 256]

/-- Value of 8 received bytes interpreted as an unsigned 64-bit
big-endian integer: this is what the client's
`dst_file_size = htobe64(file_size)` computes from the raw bytes
`recv` placed in `file_size`, on either host endianness. -/
def be64_decode (bs : List Nat) : Nat :=
  bs.foldl (fun acc b => acc * 256 + b) 0

/-- Client descriptor (`FILESHARE_CLIENT`): the contents of the
destination file stand in for `dst_file_fd`. -/
structure FILESHARE_CLIENT where
  dst_file : List Nat
  dst_file_size : Nat
  dst_file_offset : Nat
deriving DecidableEq, Repr

/-- POSIX `pwrite` on a regular file modelled as a byte list:
overwrite `data.length` bytes starting at `offset`. -/
def pwrite_file (file data : List Nat) (offset : Nat) : List Nat :=
  file.take offset ++ data ++ file.drop (offset + data.length)

/-- The client's `client_recv_file_size`: `bytes` are the bytes
returned by `recv(server_conn_fd, &file_size, 8, MSG_WAITALL)`; an
incomplete read reports failure, otherwise the size is decoded and
the offset reset to 0. -/
def client_recv_file_size (client : FILESHARE_CLIENT) (bytes : List Nat) :
    FILESHARE_CLIENT × Bool :=
  if bytes.length ≠ 8 then
    (client, false)
  else
    ({ client with dst_file_size := be64_decode bytes, dst_file_offset := 0 }, true)

/-- The client's `client_recv_file_block`: `chunk` is the byte
sequence returned by one `recv` of up to `TRANSFER_BLOCK_SIZE` bytes;
a zero-length read before the announced size is complete reports
failure, otherwise the chunk is `pwrite`-written at the current offset
and the offset advanced (a short `pwrite` is fatal in the source and
is modelled as not occurring). -/
def client_recv_file_block (client : FILESHARE_CLIENT) (chunk : List Nat) :
    FILESHARE_CLIENT × Bool :=
  if chunk.length = 0 ∧ client.dst_file_offset ≠ client.dst_file_size then
    (client, false)
  else
    ({ client with
        dst_file := pwrite_file client.dst_file chunk client.dst_file_offset,
        dst_file_offset := client.dst_file_offset + chunk.length }, true)

/-- The client's main receive loop
(`while (client.dst_file_offset != client.dst_file_size) { ... }`) fed
with the successive chunks the stream delivers; the Boolean reports
whether the loop reached `dst_file_offset = dst_file_size`. -/
def client_recv_blocks (client : FILESHARE_CLIENT) :
    List (List Nat) → FILESHARE_CLIENT × Bool
  | [] => (client, client.dst_file_offset == client.dst_file_size)
  | chunk :: rest =>
    if client.dst_file_offset = client.dst_file_size then
      (client, true)
    else
      let r := client_recv_file_block client chunk
      if r.2 then client_recv_blocks r.1 rest else (r.1, false)

/-- Sequence of data blocks the server writes for `file` starting at
`offset`, under ideal I/O: each `SEND_DATA_BLOCK` advance preads the
next block `pread_file file TRANSFER_BLOCK_SIZE offset` and writes it
in full, until the offset reaches the file size (a size-0 file yields
one empty block, as the first advance writes 0 bytes and finishes). -/
def server_stream_blocks (file : List Nat) (offset : Nat) : List (List Nat) :=
  let blk := pread_file file TRANSFER_BLOCK_SIZE offset
  if file.length ≤ offset then [blk]
  else if offset + blk.length = file.length then [blk]
  else blk :: server_stream_blocks file (offset + blk.length)
termination_by file.length - offset
decreasing_by
  simp only [pread_file, TRANSFER_BLOCK_SIZE, List.length_take, List.length_drop]
  omega

lemma server_stream_blocks_ne_nil (file : List Nat) (offset : Nat) :
    server_stream_blocks file offset ≠ [] := by
  rw [server_stream_blocks]
  split_ifs <;> simp

lemma take_block_append (file : List Nat) (off : Nat) :
    file.take off ++ pread_file file TRANSFER_BLOCK_SIZE off
      = file.take (off + (pread_file file TRANSFER_BLOCK_SIZE off).length) := by
  rw [List.take_add]
  congr 1
  simp only [pread_file, List.length_take, List.length_drop]
  by_cases hc : file.length - off ≤ TRANSFER_BLOCK_SIZE
  · rw [Nat.min_eq_right hc]
    rw [List.take_of_length_le (by simp only [List.length_drop]; omega),
        List.take_of_length_le (by simp only [List.length_drop]; omega)]
  · rw [Nat.min_eq_left (by omega)]

lemma block_append_drop (file : List Nat) (off : Nat) :
    pread_file file TRANSFER_BLOCK_SIZE off
        ++ file.drop (off + (pread_file file TRANSFER_BLOCK_SIZE off).length)
      = file.drop off := by
  have h1 : file.drop (off + (pread_file file TRANSFER_BLOCK_SIZE off).length)
      = (file.drop off).drop (pread_file file TRANSFER_BLOCK_SIZE off).length := by
    rw [List.drop_drop]
  rw [h1]
  simp only [pread_file, List.length_take, List.length_drop]
  by_cases hc : file.length - off ≤ TRANSFER_BLOCK_SIZE
  · rw [Nat.min_eq_right hc]
    rw [List.take_of_length_le (by simp only [List.length_drop]; omega)]
    have hnil : (file.drop off).drop (file.length - off) = [] :=
      List.drop_eq_nil_of_le (by simp)
    rw [hnil, List.append_nil]
  · rw [Nat.min_eq_left (by omega)]
    exact List.take_append_drop _ _

lemma server_stream_blocks_flatten : ∀ (fuel : Nat) (file : List Nat) (off : Nat),
    file.length - off ≤ fuel →
    (server_stream_blocks file off).flatten = file.drop off := by
  intro fuel
  induction fuel with
  | zero =>
    intro file off hf
    have h1 : file.length ≤ off := by omega
    rw [server_stream_blocks]
    split_ifs with hi1 hi2 <;> try exact absurd h1 (by omega)
    all_goals simp [pread_file, List.drop_eq_nil_of_le h1]
  | succ n ih =>
    intro file off hf
    rw [server_stream_blocks]
    split_ifs with h1 h2
    · simp [pread_file, List.drop_eq_nil_of_le h1]
    · have hb := block_append_drop file off
      rw [h2, List.drop_length, List.append_nil] at hb
      simpa using hb
    · have hblk1 : 1 ≤ (pread_file file TRANSFER_BLOCK_SIZE off).length := by
        simp only [pread_file, TRANSFER_BLOCK_SIZE, List.length_take, List.length_drop]
        omega
      rw [List.flatten_cons,
          ih file (off + (pread_file file TRANSFER_BLOCK_SIZE off).length) (by omega)]
      exact block_append_drop file off

lemma server_stream_blocks_le : ∀ (fuel : Nat) (file : List Nat) (off : Nat),
    file.length - off ≤ fuel →
    ∀ b ∈ server_stream_blocks file off, b.length ≤ TRANSFER_BLOCK_SIZE := by
  intro fuel
  induction fuel with
  | zero =>
    intro file off hf b hb
    have h1 : file.length ≤ off := by omega
    rw [server_stream_blocks] at hb
    split_ifs at hb with hi1 hi2 <;> try exact absurd h1 (by omega)
    all_goals
      simp only [List.mem_singleton] at hb
      subst hb
      simp [pread_file, List.length_take]
  | succ n ih =>
    intro file off hf b hb
    rw [server_stream_blocks] at hb
    split_ifs at hb with h1 h2
    · simp only [List.mem_singleton] at hb
      subst hb
      simp [pread_file, List.length_take]
    · simp only [List.mem_singleton] at hb
      subst hb
      simp [pread_file, List.length_take]
    · rcases List.mem_cons.mp hb with rfl | hb
      · simp [pread_file, List.length_take]
      · have hblk1 : 1 ≤ (pread_file file TRANSFER_BLOCK_SIZE off).length := by
          simp only [pread_file, TRANSFER_BLOCK_SIZE, List.length_take, List.length_drop]
          omega
        exact ih file _ (by omega) b hb

lemma server_stream_blocks_dropLast : ∀ (fuel : Nat) (file : List Nat) (off : Nat),
    file.length - off ≤ fuel →
    ∀ b ∈ (server_stream_blocks file off).dropLast, b.length = TRANSFER_BLOCK_SIZE := by
  intro fuel
  induction fuel with
  | zero =>
    intro file off hf b hb
    have h1 : file.length ≤ off := by omega
    rw [server_stream_blocks] at hb
    split_ifs at hb with hi1 hi2 <;> simp at hb
  | succ n ih =>
    intro file off hf b hb
    rw [server_stream_blocks] at hb
    split_ifs at hb with h1 h2
    · simp at hb
    · simp at hb
    · rw [List.dropLast_cons_of_ne_nil (server_stream_blocks_ne_nil file _)] at hb
      have hblk1 : 1 ≤ (pread_file file TRANSFER_BLOCK_SIZE off).length := by
        simp only [pread_file, TRANSFER_BLOCK_SIZE, List.length_take, List.length_drop]
        omega
      rcases List.mem_cons.mp hb with rfl | hb
      · simp only [pread_file, TRANSFER_BLOCK_SIZE, List.length_take, List.length_drop] at *
        omega
      · exact ih file _ (by omega) b hb

lemma pwrite_step (file : List Nat) (off : Nat) (hoff : off ≤ file.length) :
    pwrite_file (file.take off ++ List.replicate (file.length - off) 0)
        (pread_file file TRANSFER_BLOCK_SIZE off) off
      = file.take (off + (pread_file file TRANSFER_BLOCK_SIZE off).length)
          ++ List.replicate
              (file.length - (off + (pread_file file TRANSFER_BLOCK_SIZE off).length)) 0 := by
  have hA : (file.take off).length = off := by
    rw [List.length_take]
    omega
  have ht : (file.take off ++ List.replicate (file.length - off) 0).take off
      = file.take off := by
    have h := List.take_left (file.take off) (List.replicate (file.length - off) 0)
    rwa [hA] at h
  have hd : (file.take off ++ List.replicate (file.length - off) 0).drop
        (off + (pread_file file TRANSFER_BLOCK_SIZE off).length)
      = List.replicate
          (file.length - (off + (pread_file file TRANSFER_BLOCK_SIZE off).length)) 0 := by
    have hdl := List.drop_left (file.take off) (List.replicate (file.length - off) 0)
    rw [hA] at hdl
    rw [← List.drop_drop, hdl, List.drop_replicate]
    congr 1
    omega
  unfold pwrite_file
  rw [ht, hd, ← take_block_append, List.append_assoc]

lemma client_recv_blocks_cons_step (client c2 : FILESHARE_CLIENT) (chunk : List Nat)
    (rest : List (List Nat))
    (h : client.dst_file_offset ≠ client.dst_file_size)
    (hstep : client_recv_file_block client chunk = (c2, true)) :
    client_recv_blocks client (chunk :: rest) = client_recv_blocks c2 rest := by
  rw [client_recv_blocks, if_neg h]
  simp [hstep]

lemma client_drain : ∀ (fuel : Nat) (file : List Nat) (off : Nat),
    file.length - off ≤ fuel → off ≤ file.length →
    client_recv_blocks
        ⟨file.take off ++ List.replicate (file.length - off) 0, file.length, off⟩
        (server_stream_blocks file off)
      = (⟨file, file.length, file.length⟩, true) := by
  intro fuel
  induction fuel with
  | zero =>
    intro file off hf hoff
    have hoe : off = file.length := by omega
    subst hoe
    rw [server_stream_blocks]
    split_ifs with hi1 hi2 <;>
      simp [client_recv_blocks, List.take_length]
  | succ n ih =>
    intro file off hf hoff
    by_cases h1 : file.length ≤ off
    · have hoe : off = file.length := by omega
      subst hoe
      rw [server_stream_blocks]
      split_ifs with hi1 hi2 <;>
        simp [client_recv_blocks, List.take_length]
    · have hblk1 : 1 ≤ (pread_file file TRANSFER_BLOCK_SIZE off).length := by
        simp only [pread_file, TRANSFER_BLOCK_SIZE, List.length_take, List.length_drop]
        omega
      have hblkle : off + (pread_file file TRANSFER_BLOCK_SIZE off).length
          ≤ file.length := by
        simp only [pread_file, List.length_take, List.length_drop]
        omega
      have hstep : client_recv_file_block
            ⟨file.take off ++ List.replicate (file.length - off) 0, file.length, off⟩
            (pread_file file TRANSFER_BLOCK_SIZE off)
          = (⟨file.take (off + (pread_file file TRANSFER_BLOCK_SIZE off).length)
                ++ List.replicate
                    (file.length
                      - (off + (pread_file file TRANSFER_BLOCK_SIZE off).length)) 0,
              file.length, off + (pread_file file TRANSFER_BLOCK_SIZE off).length⟩,
             true) := by
        unfold client_recv_file_block
        rw [if_neg (by
          intro hand
          omega)]
        rw [pwrite_step file off (by omega)]
      rw [server_stream_blocks]
      split_ifs with hi2
      · rw [client_recv_blocks_cons_step _ _ _ _ (by show off ≠ file.length; omega) hstep, hi2, client_recv_blocks]
        simp [List.take_length]
      · rw [client_recv_blocks_cons_step _ _ _ _ (by show off ≠ file.length; omega) hstep]
        exact ih file (off + (pread_file file TRANSFER_BLOCK_SIZE off).length)
          (by omega) hblkle

lemma be64_decode_htobe64 (n : Nat) (h : n < 2 ^ 64) :
    be64_decode (htobe64_bytes n) = n := by
  simp only [htobe64_bytes, be64_decode, List.foldl]
  omega

lemma send_file_block_ideal (server : FILESHARE_SERVER) (conn : FILESHARE_CONNECTION)
    (hsz : server.src_file_size = server.src_file.length)
    (hoff : conn.src_file_offset ≤ server.src_file.length) :
    (server_send_file_block server conn
        (pread_file server.src_file TRANSFER_BLOCK_SIZE conn.src_file_offset).length
        (pread_file server.src_file TRANSFER_BLOCK_SIZE conn.src_file_offset).length
        0).1.src_file_offset
      = conn.src_file_offset
        + (pread_file server.src_file TRANSFER_BLOCK_SIZE conn.src_file_offset).length ∧
    ((server_send_file_block server conn
        (pread_file server.src_file TRANSFER_BLOCK_SIZE conn.src_file_offset).length
        (pread_file server.src_file TRANSFER_BLOCK_SIZE conn.src_file_offset).length
        0).2 = true ↔
      conn.src_file_offset
        + (pread_file server.src_file TRANSFER_BLOCK_SIZE conn.src_file_offset).length
        ≠ server.src_file_size) := by
  have hM : SIZE_MAX = 18446744073709551615 := by norm_num [SIZE_MAX]
  have hT : TRANSFER_BLOCK_SIZE = 1024 := rfl
  have hk : (pread_file server.src_file TRANSFER_BLOCK_SIZE conn.src_file_offset).length
      = min TRANSFER_BLOCK_SIZE (server.src_file.length - conn.src_file_offset) := by
    simp [pread_file, List.length_take, List.length_drop]
  rw [server_send_file_block]
  rw [if_neg (by rw [hk]; omega)]
  rw [if_neg (by rw [hk]; omega)]
  by_cases hfin : conn.src_file_offset
      + (pread_file server.src_file TRANSFER_BLOCK_SIZE conn.src_file_offset).length
      = server.src_file_size
  · simp [hfin]
  · simp [hfin]

/-- C2.  Round trip of the wire protocol: the blocks the server
streams for a file concatenate back to exactly the file (so their
lengths sum to the file size), every block is at most
`TRANSFER_BLOCK_SIZE` bytes with only the last block possibly shorter,
the 8-byte big-endian size header decodes on the client to the file
length, a client that drains the whole stream reconstructs the file
exactly and stops by the announced length alone, and each streamed
block is precisely what one `server_send_file_block` advance under
ideal I/O writes at its strictly increasing offset. -/
theorem C2_round_trip (file : List Nat) (h64 : file.length < 2 ^ 64) :
    (server_stream_blocks file 0).flatten = file ∧
    ((server_stream_blocks file 0).map List.length).sum = file.length ∧
    (∀ b ∈ server_stream_blocks file 0, b.length ≤ TRANSFER_BLOCK_SIZE) ∧
    (∀ b ∈ (server_stream_blocks file 0).dropLast, b.length = TRANSFER_BLOCK_SIZE) ∧
    be64_decode (htobe64_bytes file.length) = file.length ∧
    client_recv_blocks
        (client_recv_file_size ⟨List.replicate file.length 0, 0, 0⟩
          (htobe64_bytes file.length)).1
        (server_stream_blocks file 0)
      = (⟨file, file.length, file.length⟩, true) ∧
    (∀ (conn : FILESHARE_CONNECTION) (lfd : Int),
      conn.src_file_offset ≤ file.length →
      (server_send_file_block ⟨file, file.length, lfd⟩ conn
          (pread_file file TRANSFER_BLOCK_SIZE conn.src_file_offset).length
          (pread_file file TRANSFER_BLOCK_SIZE conn.src_file_offset).length
          0).1.src_file_offset
        = conn.src_file_offset
          + (pread_file file TRANSFER_BLOCK_SIZE conn.src_file_offset).length ∧
      ((server_send_file_block ⟨file, file.length, lfd⟩ conn
          (pread_file file TRANSFER_BLOCK_SIZE conn.src_file_offset).length
          (pread_file file TRANSFER_BLOCK_SIZE conn.src_file_offset).length
          0).2 = true ↔
        conn.src_file_offset
          + (pread_file file TRANSFER_BLOCK_SIZE conn.src_file_offset).length
          ≠ file.length)) := by
  have hfl : (server_stream_blocks file 0).flatten = file := by
    simpa using server_stream_blocks_flatten file.length file 0 (by omega)
  refine ⟨hfl, ?_, ?_, ?_, ?_, ?_, ?_⟩
  · rw [← List.length_flatten, hfl]
  · exact server_stream_blocks_le file.length file 0 (by omega)
  · exact server_stream_blocks_dropLast file.length file 0 (by omega)
  · exact be64_decode_htobe64 file.length h64
  · rw [client_recv_file_size, if_neg (by simp [htobe64_bytes])]
    rw [be64_decode_htobe64 file.length h64]
    simpa using client_drain file.length file 0 (by omega) (by omega)
  · intro conn lfd hco
    exact send_file_block_ideal ⟨file, file.length, lfd⟩ conn rfl hco

/-- C2, witness at a concrete 5-byte file. -/
theorem C2_round_trip_witness :
    (server_stream_blocks [1, 2, 3, 4, 5] 0).flatten = [1, 2, 3, 4, 5] ∧
    ((server_stream_blocks [1, 2, 3, 4, 5] 0).map List.length).sum = 5 ∧
    (∀ b ∈ server_stream_blocks [1, 2, 3, 4, 5] 0, b.length ≤ TRANSFER_BLOCK_SIZE) ∧
    (∀ b ∈ (server_stream_blocks [1, 2, 3, 4, 5] 0).dropLast,
      b.length = TRANSFER_BLOCK_SIZE) ∧
    be64_decode (htobe64_bytes 5) = 5 ∧
    client_recv_blocks
        (client_recv_file_size ⟨List.replicate 5 0, 0, 0⟩ (htobe64_bytes 5)).1
        (server_stream_blocks [1, 2, 3, 4, 5] 0)
      = (⟨[1, 2, 3, 4, 5], 5, 5⟩, true) ∧
    (∀ (conn : FILESHARE_CONNECTION) (lfd : Int),
      conn.src_file_offset ≤ 5 →
      (server_send_file_block ⟨[1, 2, 3, 4, 5], 5, lfd⟩ conn
          (pread_file [1, 2, 3, 4, 5] TRANSFER_BLOCK_SIZE conn.src_file_offset).length
          (pread_file [1, 2, 3, 4, 5] TRANSFER_BLOCK_SIZE conn.src_file_offset).length
          0).1.src_file_offset
        = conn.src_file_offset
          + (pread_file [1, 2, 3, 4, 5] TRANSFER_BLOCK_SIZE conn.src_file_offset).length ∧
      ((server_send_file_block ⟨[1, 2, 3, 4, 5], 5, lfd⟩ conn
          (pread_file [1, 2, 3, 4, 5] TRANSFER_BLOCK_SIZE conn.src_file_offset).length
          (pread_file [1, 2, 3, 4, 5] TRANSFER_BLOCK_SIZE conn.src_file_offset).length
          0).2 = true ↔
        conn.src_file_offset
          + (pread_file [1, 2, 3, 4, 5] TRANSFER_BLOCK_SIZE conn.src_file_offset).length
          ≠ 5)) :=
  C2_round_trip [1, 2, 3, 4, 5] (by norm_num)
--===================================================================
-- The poll-based event loop of server-poll.c
--===================================================================

/-- poll(2) event bit for readability (`POLLIN`). -/
def POLLIN : Nat := 1

/-- poll(2) event bit for writability (`POLLOUT`). -/
def POLLOUT : Nat := 4

/-- poll(2) event bit for peer hangup (`POLLHUP`). -/
def POLLHUP : Nat := 16

/-- One entry of the `struct pollfd` array (the `revents` field is
modelled by the per-iteration environment below, as poll(2) fills it
only for entries with a non-negative `fd`). -/
structure Pollfd where
  fd : Int
  events : Nat
deriving DecidableEq, Repr

/-- The value written into `pollfds[0]` by `poll_server_wait_for_client`. -/
def poll_server_wait_for_client (server : FILESHARE_SERVER) : Pollfd :=
  { fd := server.listen_sock_fd, events := POLLIN }

/-- The value written into `pollfds[0]` by `poll_server_do_not_wait_for_client`. -/
def poll_server_do_not_wait_for_client : Pollfd :=
  { fd := -1, events := 0 }

/-- The value written into `pollfds[1 + conn_i]` by `poll_conn_wait_on_socket`. -/
def poll_conn_wait_on_socket (conn : FILESHARE_CONNECTION) : Pollfd :=
  { fd := conn.client_sock_fd, events := POLLOUT + POLLHUP }

/-- The value written into `pollfds[1 + conn_i]` by `poll_conn_do_not_wait_on_socket`. -/
def poll_conn_do_not_wait_on_socket : Pollfd :=
  { fd := -1, events := 0 }

/-- The per-connection arm of the registration loop in `main`
(lines 133-148 of `server-poll.c`): an `CONNECTION_EMPTY` state below
`num_connected_clients` is the fatal `Unexpected state!` path. -/
def arm_conn_entry (conn : FILESHARE_CONNECTION) : Option Pollfd :=
  match conn.state with
  | .CONNECTION_EMPTY => none
  | .SEND_FILE_SIZE => some (poll_conn_wait_on_socket conn)
  | .SEND_DATA_BLOCK => some (poll_conn_wait_on_socket conn)
  | .TRANSFER_FINISHED => some poll_conn_do_not_wait_on_socket

/-- Registration loop over the connected prefix of the table. -/
def arm_conns : List FILESHARE_CONNECTION → Option (List Pollfd)
  | [] => some []
  | c :: rest =>
    match arm_conn_entry c with
    | none => none
    | some p =>
      match arm_conns rest with
      | none => none
      | some ps => some (p :: ps)

/-- Mutable state of one `main` event-loop iteration: the connection
table and the two counters `num_active_clients` /
`num_connected_clients`. -/
structure LoopState where
  conns : List FILESHARE_CONNECTION
  num_active_clients : Nat
  num_connected_clients : Nat
deriving DecidableEq, Repr

/-- Default `pollfd` used for entries outside the `nfds` range passed
to poll(2); such entries can never report readiness, which the
negative `fd` encodes. -/
def pdef : Pollfd := { fd := -1, events := 0 }

/-- Contents of the `pollfds` array at the moment `poll` is called:
entry 0 is the listening socket (armed only when `accept_new`), entry
`1 + i` the entry produced for connection `i < num_connected_clients`;
`none` is the fatal `Unexpected state!` exit. -/
def build_pollfds (server : FILESHARE_SERVER) (s : LoopState) (accept_new : Bool) :
    Option (List Pollfd) :=
  match arm_conns (s.conns.take s.num_connected_clients) with
  | none => none
  | some es =>
    some ((if accept_new then poll_server_wait_for_client server
           else poll_server_do_not_wait_for_client) :: es)

/-- Environment of one loop iteration: the shutdown-flag reading, the
poll(2) outcome (failure flag plus, for every tracked entry, the
`POLLIN`/`POLLOUT`/`POLLHUP` bits of `revents`), and the outcomes of
the syscalls an iteration may perform (`accept` and the
`pread`/`write` pairs of dispatched advances, indexed by connection
slot). -/
structure PollEnv where
  shutdown : Bool
  poll_fail : Bool
  listen_ready : Bool
  hup : Nat → Bool
  out : Nat → Bool
  accept_fatal : Bool
  accept_fd : Int
  pread_ret : Nat → Nat
  write_ret : Nat → Nat
  write_errno : Nat → Nat

/-- Handling of one connection index inside the dispatch loop
(lines 171-207 of `server-poll.c`): `POLLHUP` closes the connection
and marks it finished; `POLLOUT` dispatches on the state and closes
the connection when the advance reports failure; `revents` bits are
only delivered for entries poll(2) actually tracked (`armed`). -/
def dispatch_step (server : FILESHARE_SERVER) (env : PollEnv) (armed : Nat → Bool)
    (i : Nat) (cs : List FILESHARE_CONNECTION) (active : Nat) :
    Option (List FILESHARE_CONNECTION × Nat) :=
  if armed i && env.hup i then
    some (cs.set i { cs.getD i cdef with state := .TRANSFER_FINISHED }, active - 1)
  else if armed i && env.out i then
    match (cs.getD i cdef).state with
    | .CONNECTION_EMPTY => none
    | .SEND_FILE_SIZE =>
      let r := server_send_file_size server (cs.getD i cdef)
        (env.write_ret i) (env.write_errno i)
      some (cs.set i r.1, if r.2 then active else active - 1)
    | .SEND_DATA_BLOCK =>
      let r := server_send_file_block server (cs.getD i cdef)
        (env.pread_ret i) (env.write_ret i) (env.write_errno i)
      some (cs.set i r.1, if r.2 then active else active - 1)
    | .TRANSFER_FINISHED => some (cs, active - 1)
  else
    some (cs, active)

/-- Dispatch loop over the given connection indices. -/
def dispatch_all (server : FILESHARE_SERVER) (env : PollEnv) (armed : Nat → Bool) :
    List Nat → List FILESHARE_CONNECTION → Nat →
    Option (List FILESHARE_CONNECTION × Nat)
  | [], cs, active => some (cs, active)
  | i :: rest, cs, active =>
    match dispatch_step server env armed i cs active with
    | none => none
    | some (cs2, a2) => dispatch_all server env armed rest cs2 a2

/-- Result of one iteration of the `while (true)` loop in `main`:
`brk` leaves the loop (`break`), `next` continues with the updated
state, `fatal` is any `exit(EXIT_FAILURE)` path inside the loop. -/
inductive IterResult where
  | brk (s : LoopState)
  | next (s : LoopState)
  | fatal
deriving DecidableEq, Repr

/-- The per-iteration admission predicate
`num_connected_clients != max_conns && !program_in_shutdown()`. -/
def accept_new_flag (max_conns : Nat) (env : PollEnv) (s : LoopState) : Bool :=
  (s.num_connected_clients != max_conns) && !env.shutdown

/-- Dispatch part of one iteration (the second `for` loop of `main`,
lines 171-208): every connected slot is processed once on its
`revents`. -/
def loop_dispatch_phase (server : FILESHARE_SERVER) (env : PollEnv)
    (armed : Nat → Bool) (s1 : LoopState) : IterResult :=
  match dispatch_all server env armed (List.range s1.num_connected_clients)
      s1.conns s1.num_active_clients with
  | none => .fatal
  | some (cs2, a2) =>
    .next { conns := cs2, num_active_clients := a2,
            num_connected_clients := s1.num_connected_clients }

/-- Effect of the accept branch (lines 161-169):
`server_accept_connection_request` stores the accepted descriptor in
the next free slot, `main` sets the slot to `SEND_FILE_SIZE` and
increments both counters. -/
def accept_client (env : PollEnv) (s : LoopState) : LoopState :=
  { conns := s.conns.set s.num_connected_clients
      { s.conns.getD s.num_connected_clients cdef with
          client_sock_fd := env.accept_fd, state := .SEND_FILE_SIZE },
    num_active_clients := s.num_active_clients + 1,
    num_connected_clients := s.num_connected_clients + 1 }

/-- Accept-then-dispatch part of one iteration, given the `pollfds`
array passed to poll(2): poll only reports events for entries with a
non-negative `fd` (`armed`), the listening socket is checked first
(`pollfds[0].revents & POLLIN`), and a fatal `accept` failure aborts
the process. -/
def loop_accept_phase (server : FILESHARE_SERVER) (env : PollEnv)
    (pollfds : List Pollfd) (s : LoopState) : IterResult :=
  let armed : Nat → Bool := fun i => decide (0 ≤ (pollfds.getD (1 + i) pdef).fd)
  let listen_in := decide (0 ≤ (pollfds.getD 0 pdef).fd) && env.listen_ready
  if listen_in && env.accept_fatal then .fatal
  else
    loop_dispatch_phase server env armed (if listen_in then accept_client env s else s)

/-- One iteration of the event loop of `main` (lines 111-210 of
`server-poll.c`): compute `accept_new_connections`, exit the loop when
no client is active and no new one may arrive, rebuild the `pollfds`
registrations (fatal on an unexpected state), poll (fatal on error),
accept one pending connection if the listening socket is ready, then
dispatch every connected slot on its `revents`. -/
def loop_iter (max_conns : Nat) (server : FILESHARE_SERVER) (env : PollEnv)
    (s : LoopState) : IterResult :=
  if s.num_active_clients == 0 && !(accept_new_flag max_conns env s) then
    .brk s
  else
    match build_pollfds server s (accept_new_flag max_conns env s) with
    | none => .fatal
    | some pollfds =>
      if env.poll_fail then .fatal
      else loop_accept_phase server env pollfds s

/-- Loop state right before the first iteration (`calloc` plus the
`CONNECTION_EMPTY` initialisation loop, both counters 0). -/
def init_loop_state (max_conns : Nat) : LoopState :=
  { conns := List.replicate max_conns cdef,
    num_active_clients := 0,
    num_connected_clients := 0 }

/-- Code after the loop (lines 212-219): close the listening socket
and the source file (each close failure is a fatal non-zero exit),
print `Transfer finished` once and return `EXIT_SUCCESS`. -/
def main_epilogue (close_listen_ok close_file_ok : Bool) :
    Option (List String × Nat) :=
  if !close_listen_ok then none
  else if !close_file_ok then none
  else some (["Transfer finished"], EXIT_SUCCESS)

/-- The shutdown query `program_in_shutdown`: an atomic load of the
flag `received_sigint`. -/
def program_in_shutdown (received_sigint : Bool) : Bool := received_sigint

/-- The handler `sigint_handler`: an atomic store of `true` into
`received_sigint`, regardless of the previous value; nothing in the
program ever stores `false` after initialisation. -/
def sigint_handler (received_sigint : Bool) : Bool := true

--===================================================================
-- Environment/setup functions (fatal error paths), from
-- server-common-multiplexing.h and the epoll variant of the loop
--===================================================================

/-- The setup function `server_open_src_file`: `open` followed by
`fstat`, each return value passed in; any failure exits with
`EXIT_FAILURE`, success yields the descriptor and the measured size. -/
def server_open_src_file (open_ret fstat_ret : Int) (st_size : Nat) :
    Except Nat (Int × Nat) :=
  if open_ret = -1 then .error EXIT_FAILURE
  else if fstat_ret = -1 then .error EXIT_FAILURE
  else .ok (open_ret, st_size)

/-- The setup function `server_init_listen_socket`: `socket`,
`setsockopt`, `bind`, `listen`; any failure exits with
`EXIT_FAILURE`. -/
def server_init_listen_socket (socket_ret setsockopt_ret bind_ret listen_ret : Int) :
    Except Nat Int :=
  if socket_ret = -1 then .error EXIT_FAILURE
  else if setsockopt_ret = -1 then .error EXIT_FAILURE
  else if bind_ret = -1 then .error EXIT_FAILURE
  else if listen_ret = -1 then .error EXIT_FAILURE
  else .ok socket_ret

/-- Readiness registration of the listening socket in the epoll
variant (`epoll_server_wait_for_client`): a failing `epoll_ctl` call
exits with `EXIT_FAILURE`, with no retry. -/
def epoll_server_wait_for_client (epoll_ctl_ret : Int) : Except Nat Unit :=
  if epoll_ctl_ret = -1 then .error EXIT_FAILURE else .ok ()

/-- Readiness registration of a connection socket in the epoll variant
(`epoll_conn_wait_on_socket`): a failing `epoll_ctl` call exits with
`EXIT_FAILURE`, with no retry. -/
def epoll_conn_wait_on_socket (epoll_ctl_ret : Int) : Except Nat Unit :=
  if epoll_ctl_ret = -1 then .error EXIT_FAILURE else .ok ()

--===================================================================
-- Counting active connections; the loop invariant
--===================================================================

/-- States in which a connection still has work to do (it is counted
by `num_active_clients`). -/
def isActiveState : TRANSFER_STATE → Bool
  | .SEND_FILE_SIZE => true
  | .SEND_DATA_BLOCK => true
  | _ => false

/-- Contribution of one connection record to the active count. -/
def act1 (c : FILESHARE_CONNECTION) : Nat :=
  if isActiveState c.state then 1 else 0

/-- Number of non-terminal connections in the table. -/
def countA (cs : List FILESHARE_CONNECTION) : Nat :=
  (cs.filter fun c => isActiveState c.state).length

lemma countA_nil : countA [] = 0 := rfl

lemma countA_cons (c : FILESHARE_CONNECTION) (cs : List FILESHARE_CONNECTION) :
    countA (c :: cs) = act1 c + countA cs := by
  simp only [countA, act1, List.filter]
  cases h : isActiveState c.state <;> simp [h]
  omega

lemma getD_set_self {α : Type} (cs : List α) (i : Nat) (x d : α) (h : i < cs.length) :
    (cs.set i x).getD i d = x := by
  induction cs generalizing i with
  | nil => simp at h
  | cons a t ih =>
    cases i with
    | zero => rfl
    | succ k =>
      simp only [List.set, List.getD_cons_succ]
      exact ih k (by simpa using h)

lemma getD_set_ne {α : Type} (cs : List α) (i j : Nat) (x d : α) (h : i ≠ j) :
    (cs.set i x).getD j d = cs.getD j d := by
  induction cs generalizing i j with
  | nil => simp [List.set]
  | cons a t ih =>
    cases i with
    | zero =>
      cases j with
      | zero => exact absurd rfl h
      | succ m => rfl
    | succ k =>
      cases j with
      | zero => rfl
      | succ m =>
        simp only [List.set, List.getD_cons_succ]
        exact ih k m (by omega)

lemma getD_take {α : Type} (cs : List α) (n i : Nat) (d : α) (h : i < n) :
    (cs.take n).getD i d = cs.getD i d := by
  induction cs generalizing n i with
  | nil => simp
  | cons a t ih =>
    cases n with
    | zero => omega
    | succ m =>
      cases i with
      | zero => rfl
      | succ k =>
        simp only [List.take, List.getD_cons_succ]
        exact ih m k (by omega)

lemma countA_set (cs : List FILESHARE_CONNECTION) (i : Nat) (c : FILESHARE_CONNECTION)
    (h : i < cs.length) :
    countA (cs.set i c) + act1 (cs.getD i cdef) = countA cs + act1 c := by
  induction cs generalizing i with
  | nil => simp at h
  | cons a t ih =>
    cases i with
    | zero =>
      simp only [List.set, List.getD_cons_zero, countA_cons]
      omega
    | succ k =>
      simp only [List.set, List.getD_cons_succ, countA_cons]
      have := ih k (by simpa using h)
      omega

lemma countA_pos (cs : List FILESHARE_CONNECTION) (i : Nat) (h : i < cs.length)
    (ha : isActiveState (cs.getD i cdef).state = true) : 1 ≤ countA cs := by
  induction cs generalizing i with
  | nil => simp at h
  | cons a t ih =>
    cases i with
    | zero =>
      simp only [List.getD_cons_zero] at ha
      simp [countA_cons, act1, ha]
    | succ k =>
      simp only [List.getD_cons_succ] at ha
      have := ih k (by simpa using h) ha
      simp [countA_cons]
      omega

/-- Invariant of the event loop: the table has the configured length,
the admitted count is bounded by it, the active counter counts exactly
the non-terminal connections, slots not yet admitted are
`CONNECTION_EMPTY`, and admitted slots never are. -/
def LoopInv (max_conns : Nat) (s : LoopState) : Prop :=
  s.conns.length = max_conns ∧
  s.num_connected_clients ≤ max_conns ∧
  s.num_active_clients = countA s.conns ∧
  (∀ i, s.num_connected_clients ≤ i →
    (s.conns.getD i cdef).state = .CONNECTION_EMPTY) ∧
  (∀ i, i < s.num_connected_clients →
    (s.conns.getD i cdef).state ≠ .CONNECTION_EMPTY)

lemma send_file_size_act (server : FILESHARE_SERVER) (conn : FILESHARE_CONNECTION)
    (bw er : Nat) (h : conn.state = .SEND_FILE_SIZE) :
    isActiveState (server_send_file_size server conn bw er).1.state
      = (server_send_file_size server conn bw er).2 ∧
    (server_send_file_size server conn bw er).1.state ≠ .CONNECTION_EMPTY := by
  unfold server_send_file_size
  split_ifs <;> simp [isActiveState, h]

lemma send_file_block_act (server : FILESHARE_SERVER) (conn : FILESHARE_CONNECTION)
    (br bw er : Nat) (h : conn.state = .SEND_DATA_BLOCK) :
    isActiveState (server_send_file_block server conn br bw er).1.state
      = (server_send_file_block server conn br bw er).2 ∧
    (server_send_file_block server conn br bw er).1.state ≠ .CONNECTION_EMPTY := by
  simp only [server_send_file_block]
  split_ifs <;> simp [isActiveState, h]

lemma arm_conns_spec : ∀ (l : List FILESHARE_CONNECTION),
    (∀ j, j < l.length → (l.getD j cdef).state ≠ .CONNECTION_EMPTY) →
    ∃ es, arm_conns l = some es ∧ es.length = l.length ∧
      ∀ j, j < l.length → arm_conn_entry (l.getD j cdef) = some (es.getD j pdef) := by
  intro l
  induction l with
  | nil => exact fun _ => ⟨[], rfl, rfl, by simp⟩
  | cons c t ih =>
    intro hne
    have hc : c.state ≠ .CONNECTION_EMPTY := by
      have := hne 0 (by simp)
      simpa using this
    have hentry : ∃ p, arm_conn_entry c = some p := by
      unfold arm_conn_entry
      cases hs : c.state
      · exact absurd hs hc
      · exact ⟨_, rfl⟩
      · exact ⟨_, rfl⟩
      · exact ⟨_, rfl⟩
    obtain ⟨p, hp⟩ := hentry
    obtain ⟨es, hes, hlen, hget⟩ := ih (fun j hj => by
      have := hne (j + 1) (by simpa using hj)
      simpa using this)
    refine ⟨p :: es, ?_, by simp [hlen], ?_⟩
    · unfold arm_conns
      rw [hp, hes]
    · intro j hj
      cases j with
      | zero => simpa using hp
      | succ k =>
        simp only [List.getD_cons_succ]
        exact hget k (by simpa using hj)

lemma dispatch_step_spec (server : FILESHARE_SERVER) (env : PollEnv)
    (armed : Nat → Bool) (i : Nat) (cs : List FILESHARE_CONNECTION) (active : Nat)
    (hlen : i < cs.length)
    (harm : armed i = true → isActiveState (cs.getD i cdef).state = true)
    (hact : active = countA cs) :
    ∀ cs2 a2, dispatch_step server env armed i cs active = some (cs2, a2) →
      cs2.length = cs.length ∧ a2 = countA cs2 ∧
      (∀ j, j ≠ i → cs2.getD j cdef = cs.getD j cdef) ∧
      (∀ j, (cs2.getD j cdef).state = .CONNECTION_EMPTY →
        (cs.getD j cdef).state = .CONNECTION_EMPTY) := by
  intro cs2 a2 hd
  unfold dispatch_step at hd
  split_ifs at hd with h1 h2
  · -- POLLHUP: close and mark finished
    obtain ⟨harm1, -⟩ := Bool.and_eq_true_iff.mp h1
    have hactive := harm harm1
    have hone : act1 (cs.getD i cdef) = 1 := by
      unfold act1
      rw [hactive]
      rfl
    have hcnt := countA_set cs i { cs.getD i cdef with state := .TRANSFER_FINISHED } hlen
    have hpos := countA_pos cs i hlen hactive
    simp only [Option.some.injEq, Prod.mk.injEq] at hd
    obtain ⟨rfl, rfl⟩ := hd
    refine ⟨by simp, ?_, ?_, ?_⟩
    · have hnew : act1 { cs.getD i cdef with state := .TRANSFER_FINISHED } = 0 := by
        simp [act1, isActiveState]
      dsimp only at hcnt hnew ⊢
      omega
    · intro j hj
      exact getD_set_ne cs i j _ cdef (fun he => hj he.symm)
    · intro j hj
      by_cases hij : j = i
      · subst hij
        rw [getD_set_self cs j _ cdef hlen] at hj
        simp at hj
      · rwa [getD_set_ne cs i j _ cdef (fun he => hij he.symm)] at hj
  · -- POLLOUT: dispatch on the state
    obtain ⟨harm1, -⟩ := Bool.and_eq_true_iff.mp h2
    have hactive := harm harm1
    cases hs : (cs.getD i cdef).state with
    | CONNECTION_EMPTY =>
      rw [hs] at hd
      simp at hd
    | SEND_FILE_SIZE =>
      rw [hs] at hd
      simp only [Option.some.injEq, Prod.mk.injEq] at hd
      obtain ⟨rfl, rfl⟩ := hd
      obtain ⟨hact1, hnemp⟩ := send_file_size_act server (cs.getD i cdef)
        (env.write_ret i) (env.write_errno i) hs
      have hone : act1 (cs.getD i cdef) = 1 := by
        unfold act1
        rw [hs]
        rfl
      have hcnt := countA_set cs i
        (server_send_file_size server (cs.getD i cdef)
          (env.write_ret i) (env.write_errno i)).1 hlen
      have hpos := countA_pos cs i hlen (by rw [hs]; rfl)
      refine ⟨by simp, ?_, ?_, ?_⟩
      · cases hr : (server_send_file_size server (cs.getD i cdef)
            (env.write_ret i) (env.write_errno i)).2
        · have : act1 (server_send_file_size server (cs.getD i cdef)
              (env.write_ret i) (env.write_errno i)).1 = 0 := by
            rw [hr] at hact1
            unfold act1
            rw [hact1]
            rfl
          simp only [hr, Bool.false_eq_true, if_false]
          omega
        · have : act1 (server_send_file_size server (cs.getD i cdef)
              (env.write_ret i) (env.write_errno i)).1 = 1 := by
            rw [hr] at hact1
            unfold act1
            rw [hact1]
            rfl
          simp only [hr, eq_self_iff_true, if_true]
          omega
      · intro j hj
        exact getD_set_ne cs i j _ cdef (fun he => hj he.symm)
      · intro j hj
        by_cases hij : j = i
        · subst hij
          rw [getD_set_self cs j _ cdef hlen] at hj
          exact absurd hj hnemp
        · rwa [getD_set_ne cs i j _ cdef (fun he => hij he.symm)] at hj
    | SEND_DATA_BLOCK =>
      rw [hs] at hd
      simp only [Option.some.injEq, Prod.mk.injEq] at hd
      obtain ⟨rfl, rfl⟩ := hd
      obtain ⟨hact1, hnemp⟩ := send_file_block_act server (cs.getD i cdef)
        (env.pread_ret i) (env.write_ret i) (env.write_errno i) hs
      have hone : act1 (cs.getD i cdef) = 1 := by
        unfold act1
        rw [hs]
        rfl
      have hcnt := countA_set cs i
        (server_send_file_block server (cs.getD i cdef)
          (env.pread_ret i) (env.write_ret i) (env.write_errno i)).1 hlen
      have hpos := countA_pos cs i hlen (by rw [hs]; rfl)
      refine ⟨by simp, ?_, ?_, ?_⟩
      · cases hr : (server_send_file_block server (cs.getD i cdef)
            (env.pread_ret i) (env.write_ret i) (env.write_errno i)).2
        · have : act1 (server_send_file_block server (cs.getD i cdef)
              (env.pread_ret i) (env.write_ret i) (env.write_errno i)).1 = 0 := by
            rw [hr] at hact1
            unfold act1
            rw [hact1]
            rfl
          simp only [hr, Bool.false_eq_true, if_false]
          omega
        · have : act1 (server_send_file_block server (cs.getD i cdef)
              (env.pread_ret i) (env.write_ret i) (env.write_errno i)).1 = 1 := by
            rw [hr] at hact1
            unfold act1
            rw [hact1]
            rfl
          simp only [hr, eq_self_iff_true, if_true]
          omega
      · intro j hj
        exact getD_set_ne cs i j _ cdef (fun he => hj he.symm)
      · intro j hj
        by_cases hij : j = i
        · subst hij
          rw [getD_set_self cs j _ cdef hlen] at hj
          exact absurd hj hnemp
        · rwa [getD_set_ne cs i j _ cdef (fun he => hij he.symm)] at hj
    | TRANSFER_FINISHED =>
      rw [hs] at hactive
      simp [isActiveState] at hactive
  · -- no event for this entry
    simp only [Option.some.injEq, Prod.mk.injEq] at hd
    obtain ⟨rfl, rfl⟩ := hd
    exact ⟨rfl, hact, fun _ _ => rfl, fun _ h => h⟩

lemma dispatch_all_spec (server : FILESHARE_SERVER) (env : PollEnv)
    (armed : Nat → Bool) :
    ∀ (idxs : List Nat) (cs : List FILESHARE_CONNECTION) (active : Nat),
    idxs.Nodup →
    (∀ j ∈ idxs, j < cs.length) →
    (∀ j ∈ idxs, armed j = true → isActiveState (cs.getD j cdef).state = true) →
    active = countA cs →
    ∀ cs2 a2, dispatch_all server env armed idxs cs active = some (cs2, a2) →
      cs2.length = cs.length ∧ a2 = countA cs2 ∧
      (∀ j, j ∉ idxs → cs2.getD j cdef = cs.getD j cdef) ∧
      (∀ j, (cs2.getD j cdef).state = .CONNECTION_EMPTY →
        (cs.getD j cdef).state = .CONNECTION_EMPTY) := by
  intro idxs
  induction idxs with
  | nil =>
    intro cs active _ _ _ hact cs2 a2 hd
    unfold dispatch_all at hd
    simp only [Option.some.injEq, Prod.mk.injEq] at hd
    obtain ⟨rfl, rfl⟩ := hd
    exact ⟨rfl, hact, fun _ _ => rfl, fun _ h => h⟩
  | cons i rest ih =>
    intro cs active hnd hbound hactive hact cs2 a2 hd
    unfold dispatch_all at hd
    cases hstep : dispatch_step server env armed i cs active with
    | none => rw [hstep] at hd; cases hd
    | some pair =>
      obtain ⟨cs1, a1⟩ := pair
      rw [hstep] at hd
      dsimp only at hd
      obtain ⟨hl1, ha1, hoth1, hemp1⟩ :=
        dispatch_step_spec server env armed i cs active
          (hbound i (List.mem_cons_self i rest))
          (hactive i (List.mem_cons_self i rest)) hact cs1 a1 hstep
      have hnd2 := (List.nodup_cons.mp hnd).2
      have hnotin := (List.nodup_cons.mp hnd).1
      obtain ⟨hl2, ha2, hoth2, hemp2⟩ := ih cs1 a1 hnd2
        (fun j hj => by rw [hl1]; exact hbound j (List.mem_cons_of_mem i hj))
        (fun j hj harm => by
          rw [hoth1 j (fun he => hnotin (he ▸ hj))]
          exact hactive j (List.mem_cons_of_mem i hj) harm)
        ha1 cs2 a2 hd
      refine ⟨hl2.trans hl1, ha2, ?_, ?_⟩
      · intro j hj
        have hji : j ≠ i := fun he => hj (he ▸ List.mem_cons_self i rest)
        have hjr : j ∉ rest := fun hr => hj (List.mem_cons_of_mem i hr)
        rw [hoth2 j hjr, hoth1 j hji]
      · intro j hj
        exact hemp1 j (hemp2 j hj)

lemma loop_dispatch_phase_inv (m : Nat) (server : FILESHARE_SERVER) (env : PollEnv)
    (armed : Nat → Bool) (s1 s2 : LoopState)
    (hinv1 : LoopInv m s1)
    (harm : ∀ j, j < s1.num_connected_clients → armed j = true →
      isActiveState (s1.conns.getD j cdef).state = true)
    (h : loop_dispatch_phase server env armed s1 = .next s2 ∨
         loop_dispatch_phase server env armed s1 = .brk s2) :
    LoopInv m s2 := by
  obtain ⟨hlen, hconn, hact, hempty, hnemp⟩ := hinv1
  unfold loop_dispatch_phase at h
  cases hdisp : dispatch_all server env armed (List.range s1.num_connected_clients)
      s1.conns s1.num_active_clients with
  | none =>
    rw [hdisp] at h
    rcases h with h | h <;> simp at h
  | some pair =>
    obtain ⟨cs2, a2⟩ := pair
    rw [hdisp] at h
    dsimp only at h
    rcases h with h | h
    · injection h with h2
      subst h2
      obtain ⟨hl2, ha2, hoth2, hemp2⟩ := dispatch_all_spec server env armed
        (List.range s1.num_connected_clients) s1.conns s1.num_active_clients
        (List.nodup_range _)
        (fun j hj => by
          rw [hlen]
          exact lt_of_lt_of_le (List.mem_range.mp hj) hconn)
        (fun j hj => harm j (List.mem_range.mp hj))
        hact cs2 a2 hdisp
      refine ⟨hl2.trans hlen, hconn, ha2, ?_, ?_⟩
      · intro i hi
        rw [hoth2 i (by simpa using Nat.not_lt.mpr hi)]
        exact hempty i hi
      · intro i hi hemp
        exact hnemp i hi (hemp2 i hemp)
    · simp at h

lemma accept_client_inv (m : Nat) (env : PollEnv) (s : LoopState)
    (hinv : LoopInv m s) (hroom : s.num_connected_clients < m) :
    LoopInv m (accept_client env s) := by
  obtain ⟨hlen, hconn, hact, hempty, hnemp⟩ := hinv
  have hnumlt : s.num_connected_clients < s.conns.length := by omega
  have holdempty : (s.conns.getD s.num_connected_clients cdef).state
      = .CONNECTION_EMPTY := hempty _ (le_refl _)
  have hcnt := countA_set s.conns s.num_connected_clients
    { s.conns.getD s.num_connected_clients cdef with
        client_sock_fd := env.accept_fd, state := .SEND_FILE_SIZE } hnumlt
  have hold0 : act1 (s.conns.getD s.num_connected_clients cdef) = 0 := by
    unfold act1
    rw [holdempty]
    rfl
  have hnew1 : act1 { s.conns.getD s.num_connected_clients cdef with
      client_sock_fd := env.accept_fd, state := .SEND_FILE_SIZE } = 1 := by
    unfold act1
    rfl
  dsimp only at hcnt hnew1
  refine ⟨?_, ?_, ?_, ?_, ?_⟩
  · simpa [accept_client] using hlen
  · simp only [accept_client]
    omega
  · simp only [accept_client]
    omega
  · intro i hi
    simp only [accept_client] at hi ⊢
    rw [getD_set_ne _ _ _ _ _ (by omega)]
    exact hempty i (by omega)
  · intro i hi
    simp only [accept_client] at hi ⊢
    by_cases hie : i = s.num_connected_clients
    · subst hie
      rw [getD_set_self _ _ _ _ hnumlt]
      intro hfalse
      dsimp only at hfalse
      simp at hfalse
    · rw [getD_set_ne _ _ _ _ _ (fun he => hie he.symm)]
      exact hnemp i (by omega)

lemma loop_accept_phase_inv (m : Nat) (server : FILESHARE_SERVER) (env : PollEnv)
    (pfds : List Pollfd) (s s2 : LoopState)
    (hinv : LoopInv m s)
    (hroom : 0 ≤ (pfds.getD 0 pdef).fd → s.num_connected_clients < m)
    (harmj : ∀ j, decide (0 ≤ (pfds.getD (1 + j) pdef).fd) = true →
      isActiveState (s.conns.getD j cdef).state = true)
    (h : loop_accept_phase server env pfds s = .next s2 ∨
         loop_accept_phase server env pfds s = .brk s2) :
    LoopInv m s2 := by
  unfold loop_accept_phase at h
  dsimp only at h
  by_cases haf : ((decide (0 ≤ (pfds.getD 0 pdef).fd) && env.listen_ready)
      && env.accept_fatal) = true
  · rw [if_pos haf] at h
    rcases h with h | h <;> simp at h
  · rw [if_neg haf] at h
    by_cases hli : (decide (0 ≤ (pfds.getD 0 pdef).fd) && env.listen_ready) = true
    · rw [if_pos hli] at h
      have hfd0 : 0 ≤ (pfds.getD 0 pdef).fd :=
        of_decide_eq_true (Bool.and_eq_true_iff.mp hli).1
      refine loop_dispatch_phase_inv m server env _ _ s2
        (accept_client_inv m env s hinv (hroom hfd0)) ?_ h
      intro j hj harm
      simp only [accept_client] at hj ⊢
      by_cases hje : j = s.num_connected_clients
      · have hact2 := harmj j harm
        rw [hje, hinv.2.2.2.1 _ (le_refl _)] at hact2
        simp [isActiveState] at hact2
      · rw [getD_set_ne _ _ _ _ _ (fun he => hje he.symm)]
        exact harmj j harm
    · rw [if_neg hli] at h
      refine loop_dispatch_phase_inv m server env _ _ s2 hinv ?_ h
      intro j hj harm
      exact harmj j harm

lemma loop_iter_inv (m : Nat) (server : FILESHARE_SERVER) (env : PollEnv)
    (s s2 : LoopState) (hinv : LoopInv m s)
    (h : loop_iter m server env s = .next s2 ∨ loop_iter m server env s = .brk s2) :
    LoopInv m s2 := by
  unfold loop_iter at h
  by_cases hbrk : (s.num_active_clients == 0 && !(accept_new_flag m env s)) = true
  · rw [if_pos hbrk] at h
    rcases h with h | h
    · simp at h
    · injection h with h2
      subst h2
      exact hinv
  · rw [if_neg hbrk] at h
    have hprem : ∀ j, j < (s.conns.take s.num_connected_clients).length →
        ((s.conns.take s.num_connected_clients).getD j cdef).state
          ≠ .CONNECTION_EMPTY := by
      intro j hj
      have hjn : j < s.num_connected_clients := by
        rw [List.length_take] at hj
        omega
      rw [getD_take _ _ _ _ hjn]
      exact hinv.2.2.2.2 j hjn
    obtain ⟨es, hes, heslen, hget⟩ := arm_conns_spec _ hprem
    have heslen2 : es.length = s.num_connected_clients := by
      rw [heslen, List.length_take]
      have := hinv.1
      have := hinv.2.1
      omega
    have hbuild : build_pollfds server s (accept_new_flag m env s)
        = some ((if accept_new_flag m env s then poll_server_wait_for_client server
                 else poll_server_do_not_wait_for_client) :: es) := by
      unfold build_pollfds
      rw [hes]
    rw [hbuild] at h
    dsimp only at h
    by_cases hpf : env.poll_fail
    · rw [if_pos hpf] at h
      rcases h with h | h <;> simp at h
    · rw [if_neg hpf] at h
      refine loop_accept_phase_inv m server env _ s s2 hinv ?_ ?_ h
      · -- the listening entry is armed only when admissions are allowed
        intro hfd
        cases haflag : accept_new_flag m env s with
        | false =>
          rw [haflag] at hfd
          simp [poll_server_do_not_wait_for_client] at hfd
        | true =>
          unfold accept_new_flag at haflag
          obtain ⟨hne2, -⟩ := Bool.and_eq_true_iff.mp haflag
          have := hinv.2.1
          have hnume : s.num_connected_clients ≠ m := by
            intro he
            rw [he] at hne2
            simp at hne2
          omega
      · -- an armed connection entry is an alive connection
        intro j harm
        rw [Nat.add_comm 1 j] at harm
        simp only [List.getD_cons_succ] at harm
        by_cases hj : j < s.num_connected_clients
        · have hj2 : j < (s.conns.take s.num_connected_clients).length := by
            rw [List.length_take]
            have := hinv.1
            have := hinv.2.1
            omega
          have hentry := hget j hj2
          rw [getD_take _ _ _ _ hj] at hentry
          cases hs : (s.conns.getD j cdef).state with
          | CONNECTION_EMPTY => exact absurd hs (hinv.2.2.2.2 j hj)
          | SEND_FILE_SIZE => rfl
          | SEND_DATA_BLOCK => rfl
          | TRANSFER_FINISHED =>
            unfold arm_conn_entry at hentry
            rw [hs] at hentry
            simp only [poll_conn_do_not_wait_on_socket, Option.some.injEq] at hentry
            simp only [← hentry] at harm
            simp at harm
        · have hpd : es.getD j pdef = pdef := by
            apply List.getD_eq_default
            omega
          simp only [hpd] at harm
          simp [pdef] at harm

lemma dispatch_step_id (server : FILESHARE_SERVER) (env : PollEnv) (armed : Nat → Bool)
    (k : Nat) (cs : List FILESHARE_CONNECTION) (active : Nat)
    (h1 : (armed k && env.hup k) = false) (h2 : (armed k && env.out k) = false) :
    dispatch_step server env armed k cs active = some (cs, active) := by
  unfold dispatch_step
  rw [h1, h2]
  rfl

lemma dispatch_all_id (server : FILESHARE_SERVER) (env : PollEnv) (armed : Nat → Bool) :
    ∀ (idxs : List Nat) (cs : List FILESHARE_CONNECTION) (active : Nat),
    (∀ j ∈ idxs, (armed j && env.hup j) = false ∧ (armed j && env.out j) = false) →
    dispatch_all server env armed idxs cs active = some (cs, active) := by
  intro idxs
  induction idxs with
  | nil => intro cs active _; rfl
  | cons k rest ih =>
    intro cs active hno
    unfold dispatch_all
    rw [dispatch_step_id server env armed k cs active
      (hno k (List.mem_cons_self k rest)).1 (hno k (List.mem_cons_self k rest)).2]
    exact ih cs active (fun j hj => hno j (List.mem_cons_of_mem k hj))

lemma dispatch_all_single (server : FILESHARE_SERVER) (env : PollEnv) (armed : Nat → Bool) :
    ∀ (idxs : List Nat) (cs : List FILESHARE_CONNECTION) (active : Nat) (i : Nat),
    idxs.Nodup → i ∈ idxs →
    (∀ j ∈ idxs, j ≠ i → (armed j && env.hup j) = false ∧ (armed j && env.out j) = false) →
    dispatch_all server env armed idxs cs active = dispatch_step server env armed i cs active := by
  intro idxs
  induction idxs with
  | nil => intro cs active i _ hmem; simp at hmem
  | cons k rest ih =>
    intro cs active i hnd hmem hno
    rcases List.mem_cons.mp hmem with rfl | hmem2
    · unfold dispatch_all
      cases hstep : dispatch_step server env armed i cs active with
      | none => rfl
      | some pair =>
        obtain ⟨cs1, a1⟩ := pair
        dsimp only
        exact dispatch_all_id server env armed rest cs1 a1 (fun j hj =>
          hno j (List.mem_cons_of_mem i hj)
            (fun he => (List.nodup_cons.mp hnd).1 (he ▸ hj)))
    · have hki : k ≠ i := fun he => (List.nodup_cons.mp hnd).1 (he ▸ hmem2)
      unfold dispatch_all
      rw [dispatch_step_id server env armed k cs active
        (hno k (List.mem_cons_self k rest) hki).1
        (hno k (List.mem_cons_self k rest) hki).2]
      exact ih cs active i (List.nodup_cons.mp hnd).2 hmem2
        (fun j hj hji => hno j (List.mem_cons_of_mem k hj) hji)

lemma getD_replicate_cdef : ∀ (n i : Nat), (List.replicate n cdef).getD i cdef = cdef := by
  intro n
  induction n with
  | zero => intro i; rfl
  | succ k ih =>
    intro i
    cases i with
    | zero => rfl
    | succ j =>
      rw [List.replicate_succ, List.getD_cons_succ]
      exact ih j

lemma countA_replicate_cdef : ∀ n : Nat, countA (List.replicate n cdef) = 0 := by
  intro n
  induction n with
  | zero => rfl
  | succ k ih =>
    rw [List.replicate_succ, countA_cons, ih]
    rfl

lemma countA_le_bound : ∀ (cs : List FILESHARE_CONNECTION) (n : Nat),
    (∀ i, n ≤ i → (cs.getD i cdef).state = .CONNECTION_EMPTY) → countA cs ≤ n := by
  intro cs
  induction cs with
  | nil => intro n _; simp [countA_nil]
  | cons c t ih =>
    intro n hyp
    cases n with
    | zero =>
      have hc : c.state = .CONNECTION_EMPTY := hyp 0 (le_refl 0)
      have ht := ih 0 (fun i _ => hyp (i + 1) (by omega))
      rw [countA_cons]
      have : act1 c = 0 := by
        unfold act1
        rw [hc]
        rfl
      omega
    | succ k =>
      have ht := ih k (fun i hi => by
        have := hyp (i + 1) (by omega)
        rwa [List.getD_cons_succ] at this)
      rw [countA_cons]
      have : act1 c ≤ 1 := by
        unfold act1
        split_ifs <;> omega
      omega

/-- C5.  The two counter invariants of the event loop hold initially
and are preserved by every iteration: the number of clients ever
admitted never exceeds the configured maximum, and the number of
currently active clients never exceeds the number admitted. -/
theorem C5_counter_invariants (max_conns : Nat) (server : FILESHARE_SERVER) :
    LoopInv max_conns (init_loop_state max_conns) ∧
    (∀ (env : PollEnv) (s s2 : LoopState), LoopInv max_conns s →
      (loop_iter max_conns server env s = .next s2 ∨
       loop_iter max_conns server env s = .brk s2) →
      LoopInv max_conns s2) ∧
    (∀ s : LoopState, LoopInv max_conns s →
      s.num_connected_clients ≤ max_conns ∧
      s.num_active_clients ≤ s.num_connected_clients) := by
  refine ⟨?_, ?_, ?_⟩
  · refine ⟨by simp [init_loop_state], by simp [init_loop_state], ?_, ?_, ?_⟩
    · simp [init_loop_state, countA_replicate_cdef]
    · intro i _
      simp only [init_loop_state]
      rw [getD_replicate_cdef]
      rfl
    · intro i hi
      simp [init_loop_state] at hi
  · intro env s s2 hinv h
    exact loop_iter_inv max_conns server env s s2 hinv h
  · intro s hinv
    obtain ⟨hlen, hconn, hact, hempty, hnemp⟩ := hinv
    refine ⟨hconn, ?_⟩
    rw [hact]
    exact countA_le_bound s.conns s.num_connected_clients hempty

/-- Environment with no pending events in which the shutdown flag has
been raised; used to exercise theorems at a concrete input. -/
def env_idle : PollEnv :=
  { shutdown := true, poll_fail := false, listen_ready := false,
    hup := fun _ => false, out := fun _ => false,
    accept_fatal := false, accept_fd := -1,
    pread_ret := fun _ => 0, write_ret := fun _ => 0, write_errno := fun _ => 0 }

/-- C5, witness at the concrete configuration N = 1. -/
theorem C5_counter_invariants_witness :
    LoopInv 1 (init_loop_state 1) ∧
    ((init_loop_state 1).num_connected_clients ≤ 1 ∧
     (init_loop_state 1).num_active_clients ≤ (init_loop_state 1).num_connected_clients) ∧
    LoopInv 1 (init_loop_state 1) :=
  have h := C5_counter_invariants 1 ⟨[], 0, 0⟩
  ⟨h.1, h.2.2 _ h.1,
   h.2.1 env_idle (init_loop_state 1) (init_loop_state 1) h.1 (Or.inr (by decide))⟩

lemma brk_cond_iff (max_conns : Nat) (env : PollEnv) (s : LoopState) :
    (s.num_active_clients == 0 && !(accept_new_flag max_conns env s)) = true ↔
      (s.num_active_clients = 0 ∧
        (s.num_connected_clients = max_conns ∨ env.shutdown = true)) := by
  unfold accept_new_flag
  cases hs : env.shutdown <;>
    by_cases hn : s.num_connected_clients = max_conns <;>
      simp [hs, hn]

lemma loop_dispatch_phase_ne_brk (server : FILESHARE_SERVER) (env : PollEnv)
    (armed : Nat → Bool) (s1 s2 : LoopState) :
    loop_dispatch_phase server env armed s1 ≠ .brk s2 := by
  unfold loop_dispatch_phase
  split <;> simp

lemma loop_accept_phase_ne_brk (server : FILESHARE_SERVER) (env : PollEnv)
    (pfds : List Pollfd) (s s2 : LoopState) :
    loop_accept_phase server env pfds s ≠ .brk s2 := by
  unfold loop_accept_phase
  dsimp only
  split_ifs
  · simp
  · apply loop_dispatch_phase_ne_brk
  · apply loop_dispatch_phase_ne_brk

/-- C6.  The event loop exits (`break`) exactly when no client is
active and no further admission is possible (the admitted count
reached the maximum or shutdown was requested); the loop state is left
untouched by the exit, and the epilogue after the loop prints the
final `Transfer finished` message exactly once and returns
`EXIT_SUCCESS`. -/
theorem C6_exit_condition (max_conns : Nat) (server : FILESHARE_SERVER)
    (env : PollEnv) (s : LoopState) :
    ((∃ s2, loop_iter max_conns server env s = .brk s2) ↔
      (s.num_active_clients = 0 ∧
        (s.num_connected_clients = max_conns ∨ env.shutdown = true))) ∧
    (∀ s2, loop_iter max_conns server env s = .brk s2 → s2 = s) ∧
    main_epilogue true true = some (["Transfer finished"], EXIT_SUCCESS) := by
  have hne : ∀ s2, ¬((match build_pollfds server s (accept_new_flag max_conns env s) with
      | none => IterResult.fatal
      | some pollfds =>
        if env.poll_fail then IterResult.fatal
        else loop_accept_phase server env pollfds s) = IterResult.brk s2) := by
    intro s2
    cases build_pollfds server s (accept_new_flag max_conns env s) with
    | none => simp
    | some pfds =>
      dsimp only
      split_ifs
      · simp
      · exact loop_accept_phase_ne_brk server env pfds s s2
  unfold loop_iter
  by_cases hbrk : (s.num_active_clients == 0 && !(accept_new_flag max_conns env s)) = true
  · rw [if_pos hbrk]
    refine ⟨?_, ?_, rfl⟩
    · exact ⟨fun _ => (brk_cond_iff max_conns env s).mp hbrk, fun _ => ⟨s, rfl⟩⟩
    · intro s2 h2
      injection h2 with h3
      exact h3.symm
  · rw [if_neg hbrk]
    refine ⟨?_, ?_, rfl⟩
    · constructor
      · intro ⟨s2, h2⟩
        exact absurd h2 (hne s2)
      · intro hcond
        exact absurd ((brk_cond_iff max_conns env s).mpr hcond) hbrk
    · intro s2 h2
      exact absurd h2 (hne s2)

/-- C6, witness: with the shutdown flag raised and no client active,
the loop exits immediately with the state untouched. -/
theorem C6_exit_condition_witness :
    ((∃ s2, loop_iter 1 ⟨[], 0, 0⟩ env_idle (init_loop_state 1) = .brk s2) ↔
      ((init_loop_state 1).num_active_clients = 0 ∧
        ((init_loop_state 1).num_connected_clients = 1 ∨ env_idle.shutdown = true))) ∧
    (∀ s2, loop_iter 1 ⟨[], 0, 0⟩ env_idle (init_loop_state 1) = .brk s2 →
      s2 = init_loop_state 1) ∧
    main_epilogue true true = some (["Transfer finished"], EXIT_SUCCESS) :=
  C6_exit_condition 1 ⟨[], 0, 0⟩ env_idle (init_loop_state 1)

/-- C7.  At the moment of the blocking poll(2) call the registrations
are exactly the sockets that can make progress: the array covers the
listening socket plus the connected slots; the listening socket is
armed (non-negative `fd`) precisely while admissions are still allowed
(admitted count below the maximum and shutdown not requested, the
meaning of `accept_new_connections`); and a connection entry is armed
precisely when its state is `SEND_FILE_SIZE` or `SEND_DATA_BLOCK`
(never `TRANSFER_FINISHED`; `CONNECTION_EMPTY` slots are fatal when
connected and are not part of the polled range otherwise). -/
theorem C7_registration_iff (max_conns : Nat) (server : FILESHARE_SERVER)
    (env : PollEnv) (s : LoopState) (pfds : List Pollfd)
    (hinv : LoopInv max_conns s)
    (hlfd : 0 ≤ server.listen_sock_fd)
    (hcfd : ∀ i, i < s.num_connected_clients →
      0 ≤ (s.conns.getD i cdef).client_sock_fd)
    (hbuild : build_pollfds server s (accept_new_flag max_conns env s) = some pfds) :
    pfds.length = 1 + s.num_connected_clients ∧
    (0 ≤ (pfds.getD 0 pdef).fd ↔ accept_new_flag max_conns env s = true) ∧
    (accept_new_flag max_conns env s = true ↔
      (s.num_connected_clients < max_conns ∧ env.shutdown = false)) ∧
    (∀ i, i < s.num_connected_clients →
      (0 ≤ (pfds.getD (1 + i) pdef).fd ↔
        isActiveState (s.conns.getD i cdef).state = true)) := by
  obtain ⟨hlen, hconn, hact, hempty, hnemp⟩ := hinv
  have hprem : ∀ j, j < (s.conns.take s.num_connected_clients).length →
      ((s.conns.take s.num_connected_clients).getD j cdef).state
        ≠ .CONNECTION_EMPTY := by
    intro j hj
    have hjn : j < s.num_connected_clients := by
      rw [List.length_take] at hj
      omega
    rw [getD_take _ _ _ _ hjn]
    exact hnemp j hjn
  obtain ⟨es, hes, heslen, hget⟩ := arm_conns_spec _ hprem
  have heslen2 : es.length = s.num_connected_clients := by
    rw [heslen, List.length_take]
    omega
  unfold build_pollfds at hbuild
  rw [hes] at hbuild
  dsimp only at hbuild
  injection hbuild with hbuild
  subst hbuild
  refine ⟨by simp [heslen2]; omega, ?_, ?_, ?_⟩
  · cases haflag : accept_new_flag max_conns env s with
    | false =>
      simp only [Bool.false_eq_true, if_false, List.getD_cons_zero,
        poll_server_do_not_wait_for_client]
      constructor
      · intro hcontra
        omega
      · intro hcontra
        cases hcontra
    | true =>
      simp only [if_true, List.getD_cons_zero, poll_server_wait_for_client]
      constructor
      · intro _
        trivial
      · intro _
        exact hlfd
  · unfold accept_new_flag
    cases hs2 : env.shutdown <;>
      by_cases hn : s.num_connected_clients = max_conns <;>
        simp [hs2, hn] <;> omega
  · intro i hi
    have hi2 : i < (s.conns.take s.num_connected_clients).length := by
      rw [List.length_take]
      omega
    have hentry := hget i hi2
    rw [getD_take _ _ _ _ hi] at hentry
    rw [Nat.add_comm 1 i, List.getD_cons_succ]
    cases hs2 : (s.conns.getD i cdef).state with
    | CONNECTION_EMPTY => exact absurd hs2 (hnemp i hi)
    | SEND_FILE_SIZE =>
      unfold arm_conn_entry at hentry
      rw [hs2] at hentry
      simp only [poll_conn_wait_on_socket, Option.some.injEq] at hentry
      rw [← hentry]
      simpa [isActiveState] using hcfd i hi
    | SEND_DATA_BLOCK =>
      unfold arm_conn_entry at hentry
      rw [hs2] at hentry
      simp only [poll_conn_wait_on_socket, Option.some.injEq] at hentry
      rw [← hentry]
      simpa [isActiveState] using hcfd i hi
    | TRANSFER_FINISHED =>
      unfold arm_conn_entry at hentry
      rw [hs2] at hentry
      simp only [poll_conn_do_not_wait_on_socket, Option.some.injEq] at hentry
      rw [← hentry]
      simp [isActiveState]

/-- Environment like `env_idle` but with the shutdown flag not raised. -/
def env_open : PollEnv := { env_idle with shutdown := false }

/-- C7, witness: one admitted connection in `SEND_DATA_BLOCK` under
N = 2 with admissions still allowed. -/
theorem C7_registration_iff_witness :
    ([Pollfd.mk 3 POLLIN, Pollfd.mk 5 (POLLOUT + POLLHUP)] : List Pollfd).length
        = 1 + (⟨[⟨5, 0, .SEND_DATA_BLOCK⟩, cdef], 1, 1⟩ : LoopState).num_connected_clients ∧
    (0 ≤ (([Pollfd.mk 3 POLLIN, Pollfd.mk 5 (POLLOUT + POLLHUP)] : List Pollfd).getD 0 pdef).fd ↔
      accept_new_flag 2 env_open ⟨[⟨5, 0, .SEND_DATA_BLOCK⟩, cdef], 1, 1⟩ = true) ∧
    (accept_new_flag 2 env_open ⟨[⟨5, 0, .SEND_DATA_BLOCK⟩, cdef], 1, 1⟩ = true ↔
      ((⟨[⟨5, 0, .SEND_DATA_BLOCK⟩, cdef], 1, 1⟩ : LoopState).num_connected_clients < 2 ∧
        env_open.shutdown = false)) ∧
    (∀ i, i < (⟨[⟨5, 0, .SEND_DATA_BLOCK⟩, cdef], 1, 1⟩ : LoopState).num_connected_clients →
      (0 ≤ (([Pollfd.mk 3 POLLIN, Pollfd.mk 5 (POLLOUT + POLLHUP)] : List Pollfd).getD (1 + i) pdef).fd ↔
        isActiveState (((⟨[⟨5, 0, .SEND_DATA_BLOCK⟩, cdef], 1, 1⟩ : LoopState).conns.getD i cdef)).state = true)) :=
  C7_registration_iff 2 ⟨[], 7, 3⟩ env_open ⟨[⟨5, 0, .SEND_DATA_BLOCK⟩, cdef], 1, 1⟩
    [Pollfd.mk 3 POLLIN, Pollfd.mk 5 (POLLOUT + POLLHUP)]
    ⟨rfl, by decide, by decide, by
      intro i hi
      have hi2 : 1 ≤ i := hi
      match i, hi2 with
      | 1, _ => rfl
      | n + 2, _ => rfl, by
      intro i hi
      have hi2 : i < 1 := hi
      have h0 : i = 0 := by omega
      subst h0
      decide⟩
    (by decide)
    (by
      intro i hi
      have hi2 : i < 1 := hi
      have h0 : i = 0 := by omega
      subst h0
      decide)
    (by decide)

/-- C8.  Failures are contained at the right scope.  Every
per-connection transfer failure on connection `i` — a peer hangup
(`POLLHUP` delivered), a failed read (`pread` returned `(size_t)-1`)
or a failed data-block write (`write` returned `(size_t)-1`) — is
local: the iteration continues (`next`), connection `i` alone is
closed and marked `TRANSFER_FINISHED`, every other connection record
is untouched, the admitted count and hence the admission predicate are
unchanged, and only the active count drops by one.  Environment
failures are fatal: a failing `epoll_ctl` registration call, a failing
`open`/`fstat` of the source file and a failing `socket` call all
abort the process with the non-zero status `EXIT_FAILURE`. -/
theorem C8_failure_locality (max_conns : Nat) (server : FILESHARE_SERVER)
    (env : PollEnv) (s : LoopState) (i : Nat)
    (hinv : LoopInv max_conns s)
    (hi : i < s.num_connected_clients)
    (hstate : (s.conns.getD i cdef).state = .SEND_FILE_SIZE ∨
              (s.conns.getD i cdef).state = .SEND_DATA_BLOCK)
    (hfd : 0 ≤ (s.conns.getD i cdef).client_sock_fd)
    (hpoll : env.poll_fail = false)
    (hlr : env.listen_ready = false)
    (hothers : ∀ j, j ≠ i → env.out j = false ∧ env.hup j = false)
    (hfail :
      env.hup i = true ∨
      (env.hup i = false ∧ env.out i = true ∧
        (s.conns.getD i cdef).state = .SEND_DATA_BLOCK ∧
        env.pread_ret i = SIZE_MAX) ∨
      (env.hup i = false ∧ env.out i = true ∧
        (s.conns.getD i cdef).state = .SEND_DATA_BLOCK ∧
        env.pread_ret i ≠ SIZE_MAX ∧
        ¬(env.pread_ret i = 0 ∧
          (s.conns.getD i cdef).src_file_offset ≠ server.src_file_size) ∧
        env.write_ret i = SIZE_MAX)) :
    (loop_iter max_conns server env s = .next
        { conns := s.conns.set i { s.conns.getD i cdef with state := .TRANSFER_FINISHED },
          num_active_clients := s.num_active_clients - 1,
          num_connected_clients := s.num_connected_clients } ∧
      (s.conns.set i { s.conns.getD i cdef with state := .TRANSFER_FINISHED }).getD i cdef
        = { s.conns.getD i cdef with state := .TRANSFER_FINISHED } ∧
      (∀ j, j ≠ i →
        (s.conns.set i { s.conns.getD i cdef with state := .TRANSFER_FINISHED }).getD j cdef
          = s.conns.getD j cdef) ∧
      (∀ env2 : PollEnv, accept_new_flag max_conns env2
          { conns := s.conns.set i
              { s.conns.getD i cdef with state := .TRANSFER_FINISHED },
            num_active_clients := s.num_active_clients - 1,
            num_connected_clients := s.num_connected_clients }
        = accept_new_flag max_conns env2 s)) ∧
    epoll_server_wait_for_client (-1) = .error EXIT_FAILURE ∧
    epoll_conn_wait_on_socket (-1) = .error EXIT_FAILURE ∧
    (∀ (fstat_ret : Int) (sz : Nat),
      server_open_src_file (-1) fstat_ret sz = .error EXIT_FAILURE) ∧
    (∀ so br li : Int,
      server_init_listen_socket (-1) so br li = .error EXIT_FAILURE) ∧
    EXIT_FAILURE ≠ EXIT_SUCCESS := by
  obtain ⟨hlen, hconn, hact, hempty, hnemp⟩ := hinv
  have hilen : i < s.conns.length := by omega
  have hiact : isActiveState (s.conns.getD i cdef).state = true := by
    rcases hstate with h | h
    · rw [h]
      rfl
    · rw [h]
      rfl
  have hpos := countA_pos s.conns i hilen hiact
  have hbrkF : (s.num_active_clients == 0 && !(accept_new_flag max_conns env s))
      = false := by
    have h0 : (s.num_active_clients == 0) = false := by
      cases hbe : s.num_active_clients == 0 with
      | true => exact absurd (eq_of_beq hbe) (by omega)
      | false => rfl
    rw [h0, Bool.false_and]
  have hprem : ∀ j, j < (s.conns.take s.num_connected_clients).length →
      ((s.conns.take s.num_connected_clients).getD j cdef).state
        ≠ .CONNECTION_EMPTY := by
    intro j hj
    have hjn : j < s.num_connected_clients := by
      rw [List.length_take] at hj
      omega
    rw [getD_take _ _ _ _ hjn]
    exact hnemp j hjn
  obtain ⟨es, hes, heslen, hget⟩ := arm_conns_spec _ hprem
  have hbuild : build_pollfds server s (accept_new_flag max_conns env s)
      = some ((if accept_new_flag max_conns env s then poll_server_wait_for_client server
               else poll_server_do_not_wait_for_client) :: es) := by
    unfold build_pollfds
    rw [hes]
  have hesi : es.getD i pdef = poll_conn_wait_on_socket (s.conns.getD i cdef) := by
    have hentry := hget i (by rw [List.length_take]; omega)
    rw [getD_take _ _ _ _ hi] at hentry
    unfold arm_conn_entry at hentry
    rcases hstate with h | h
    · rw [h] at hentry
      simp only [Option.some.injEq] at hentry
      exact hentry.symm
    · rw [h] at hentry
      simp only [Option.some.injEq] at hentry
      exact hentry.symm
  have hrun : loop_iter max_conns server env s = .next
      { conns := s.conns.set i { s.conns.getD i cdef with state := .TRANSFER_FINISHED },
        num_active_clients := s.num_active_clients - 1,
        num_connected_clients := s.num_connected_clients } := by
    unfold loop_iter
    simp only [hbrkF, Bool.false_eq_true, if_false]
    rw [hbuild]
    dsimp only
    simp only [hpoll, Bool.false_eq_true, if_false]
    unfold loop_accept_phase
    dsimp only
    simp only [hlr, Bool.and_false, Bool.false_and, Bool.false_eq_true, if_false]
    unfold loop_dispatch_phase
    rw [dispatch_all_single server env _ (List.range s.num_connected_clients)
      s.conns s.num_active_clients i (List.nodup_range _) (List.mem_range.mpr hi)
      (fun j _ hji => by
        obtain ⟨ho, hh⟩ := hothers j hji
        rw [ho, hh]
        exact ⟨Bool.and_false _, Bool.and_false _⟩)]
    have harmi : (decide (0 ≤
        (((if accept_new_flag max_conns env s then poll_server_wait_for_client server
           else poll_server_do_not_wait_for_client) :: es).getD (1 + i) pdef).fd)) = true := by
      rw [Nat.add_comm 1 i, List.getD_cons_succ, hesi]
      exact decide_eq_true hfd
    unfold dispatch_step
    rcases hfail with hh | ⟨hh, ho, hst, hpr⟩ | ⟨hh, ho, hst, hpr1, hpr2, hw⟩
    · simp only [harmi, hh, Bool.and_self, if_true]
    · have hr : server_send_file_block server (s.conns.getD i cdef)
          (env.pread_ret i) (env.write_ret i) (env.write_errno i)
          = ({ s.conns.getD i cdef with state := .TRANSFER_FINISHED }, false) := by
        rw [server_send_file_block, if_pos (Or.inl hpr)]
      simp only [harmi, hh, ho, Bool.and_false, Bool.and_true, Bool.false_eq_true,
        if_false, eq_self_iff_true, if_true]
      rw [hst]
      dsimp only
      simp only [hr]
      rfl
    · have hr : server_send_file_block server (s.conns.getD i cdef)
          (env.pread_ret i) (env.write_ret i) (env.write_errno i)
          = ({ s.conns.getD i cdef with state := .TRANSFER_FINISHED }, false) := by
        rw [server_send_file_block, if_neg (by tauto), if_pos (Or.inl hw)]
      simp only [harmi, hh, ho, Bool.and_false, Bool.and_true, Bool.false_eq_true,
        if_false, eq_self_iff_true, if_true]
      rw [hst]
      dsimp only
      simp only [hr]
      rfl
  refine ⟨⟨hrun, getD_set_self _ _ _ _ hilen, ?_, fun env2 => rfl⟩,
    rfl, rfl, fun _ _ => rfl, fun _ _ _ => rfl, by decide⟩
  intro j hj
  exact getD_set_ne _ _ _ _ _ (fun he => hj he.symm)

/-- Environment in which only connection 0 is writable and its
data-block write fails with a would-block result. -/
def env_write_fail : PollEnv :=
  { shutdown := false, poll_fail := false, listen_ready := false,
    hup := fun _ => false, out := fun j => j == 0,
    accept_fatal := false, accept_fd := -1,
    pread_ret := fun _ => 3, write_ret := fun _ => SIZE_MAX,
    write_errno := fun _ => EAGAIN }

/-- Environment in which connection 0 receives a peer hangup. -/
def env_hup_fail : PollEnv :=
  { shutdown := false, poll_fail := false, listen_ready := false,
    hup := fun j => j == 0, out := fun _ => false,
    accept_fatal := false, accept_fd := -1,
    pread_ret := fun _ => 0, write_ret := fun _ => 0,
    write_errno := fun _ => 0 }

/-- Environment in which only connection 0 is writable and its
`pread` fails. -/
def env_pread_fail : PollEnv :=
  { shutdown := false, poll_fail := false, listen_ready := false,
    hup := fun _ => false, out := fun j => j == 0,
    accept_fatal := false, accept_fd := -1,
    pread_ret := fun _ => SIZE_MAX, write_ret := fun _ => 0,
    write_errno := fun _ => 0 }

/-- Concrete loop state with one admitted connection in
`SEND_DATA_BLOCK`, used as witness input. -/
def c8s : LoopState := ⟨[⟨5, 0, .SEND_DATA_BLOCK⟩, cdef], 1, 1⟩

/-- Concrete server descriptor used as witness input. -/
def c8server : FILESHARE_SERVER := ⟨[9, 9, 9], 3, 3⟩

lemma c8s_inv : LoopInv 2 c8s :=
  ⟨rfl, by decide, by decide, by
    intro i hi
    have hi2 : 1 ≤ i := hi
    match i, hi2 with
    | 1, _ => rfl
    | n + 2, _ => rfl, by
    intro i hi
    have hi2 : i < 1 := hi
    have h0 : i = 0 := by omega
    subst h0
    decide⟩

lemma c8s_others (env : PollEnv) (h0 : ∀ j, env.out (j + 1) = false)
    (h1 : ∀ j, env.hup (j + 1) = false) :
    ∀ j, j ≠ 0 → env.out j = false ∧ env.hup j = false := by
  intro j hj
  cases j with
  | zero => exact absurd rfl hj
  | succ n => exact ⟨h0 n, h1 n⟩

/-- C8, witness: connection 0 hit by a peer hangup, a failed `pread`
and a failed would-block `write` respectively; each is local, and the
setup failures are fatal. -/
theorem C8_failure_locality_witness :
    (loop_iter 2 c8server env_hup_fail c8s = .next
        { conns := c8s.conns.set 0 { c8s.conns.getD 0 cdef with state := .TRANSFER_FINISHED },
          num_active_clients := c8s.num_active_clients - 1,
          num_connected_clients := c8s.num_connected_clients }) ∧
    (loop_iter 2 c8server env_pread_fail c8s = .next
        { conns := c8s.conns.set 0 { c8s.conns.getD 0 cdef with state := .TRANSFER_FINISHED },
          num_active_clients := c8s.num_active_clients - 1,
          num_connected_clients := c8s.num_connected_clients }) ∧
    (loop_iter 2 c8server env_write_fail c8s = .next
        { conns := c8s.conns.set 0 { c8s.conns.getD 0 cdef with state := .TRANSFER_FINISHED },
          num_active_clients := c8s.num_active_clients - 1,
          num_connected_clients := c8s.num_connected_clients } ∧
      (c8s.conns.set 0 { c8s.conns.getD 0 cdef with state := .TRANSFER_FINISHED }).getD 0 cdef
        = { c8s.conns.getD 0 cdef with state := .TRANSFER_FINISHED } ∧
      (∀ j, j ≠ 0 →
        (c8s.conns.set 0 { c8s.conns.getD 0 cdef with state := .TRANSFER_FINISHED }).getD j cdef
          = c8s.conns.getD j cdef) ∧
      (∀ env2 : PollEnv, accept_new_flag 2 env2
          { conns := c8s.conns.set 0
              { c8s.conns.getD 0 cdef with state := .TRANSFER_FINISHED },
            num_active_clients := c8s.num_active_clients - 1,
            num_connected_clients := c8s.num_connected_clients }
        = accept_new_flag 2 env2 c8s)) ∧
    epoll_server_wait_for_client (-1) = .error EXIT_FAILURE ∧
    epoll_conn_wait_on_socket (-1) = .error EXIT_FAILURE ∧
    (∀ (fstat_ret : Int) (sz : Nat),
      server_open_src_file (-1) fstat_ret sz = .error EXIT_FAILURE) ∧
    (∀ so br li : Int,
      server_init_listen_socket (-1) so br li = .error EXIT_FAILURE) ∧
    EXIT_FAILURE ≠ EXIT_SUCCESS :=
  ⟨(C8_failure_locality 2 c8server env_hup_fail c8s 0 c8s_inv
      (by decide) (Or.inr rfl) (by decide) rfl rfl
      (c8s_others env_hup_fail (fun j => rfl) (fun j => rfl))
      (Or.inl rfl)).1.1,
   (C8_failure_locality 2 c8server env_pread_fail c8s 0 c8s_inv
      (by decide) (Or.inr rfl) (by decide) rfl rfl
      (c8s_others env_pread_fail (fun j => rfl) (fun j => rfl))
      (Or.inr (Or.inl ⟨rfl, rfl, rfl, rfl⟩))).1.1,
   (C8_failure_locality 2 c8server env_write_fail c8s 0 c8s_inv
      (by decide) (Or.inr rfl) (by decide) rfl rfl
      (c8s_others env_write_fail (fun j => rfl) (fun j => rfl))
      (Or.inr (Or.inr ⟨rfl, rfl, rfl, by decide, by decide, rfl⟩)))⟩

lemma loop_inv_init (max_conns : Nat) : LoopInv max_conns (init_loop_state max_conns) := by
  refine ⟨by simp [init_loop_state], by simp [init_loop_state], ?_, ?_, ?_⟩
  · simp [init_loop_state, countA_replicate_cdef]
  · intro i _
    simp only [init_loop_state]
    rw [getD_replicate_cdef]
    rfl
  · intro i hi
    simp [init_loop_state] at hi

lemma loop_dispatch_phase_next_num (server : FILESHARE_SERVER) (env : PollEnv)
    (armed : Nat → Bool) (s1 s2 : LoopState)
    (h : loop_dispatch_phase server env armed s1 = .next s2) :
    s2.num_connected_clients = s1.num_connected_clients := by
  unfold loop_dispatch_phase at h
  split at h
  · cases h
  · injection h with h2
    rw [← h2]

lemma loop_iter_next_num (max_conns : Nat) (server : FILESHARE_SERVER) (env : PollEnv)
    (s s2 : LoopState) (h : loop_iter max_conns server env s = .next s2) :
    s.num_connected_clients ≤ s2.num_connected_clients := by
  unfold loop_iter at h
  by_cases h1 : (s.num_active_clients == 0 && !(accept_new_flag max_conns env s)) = true
  · rw [if_pos h1] at h
    cases h
  · rw [if_neg h1] at h
    cases hb : build_pollfds server s (accept_new_flag max_conns env s) with
    | none =>
      rw [hb] at h
      cases h
    | some pfds =>
      rw [hb] at h
      dsimp only at h
      by_cases hpf : env.poll_fail = true
      · rw [if_pos hpf] at h
        cases h
      · rw [if_neg hpf] at h
        unfold loop_accept_phase at h
        dsimp only at h
        by_cases haf : ((decide (0 ≤ (pfds.getD 0 pdef).fd) && env.listen_ready)
            && env.accept_fatal) = true
        · rw [if_pos haf] at h
          cases h
        · rw [if_neg haf] at h
          by_cases hli : (decide (0 ≤ (pfds.getD 0 pdef).fd) && env.listen_ready) = true
          · rw [if_pos hli] at h
            have := loop_dispatch_phase_next_num server env _ _ s2 h
            simp only [accept_client] at this
            omega
          · rw [if_neg hli] at h
            have := loop_dispatch_phase_next_num server env _ _ s2 h
            omega

lemma accept_flag_step (max_conns : Nat) (server : FILESHARE_SERVER)
    (env env2 : PollEnv) (s s2 : LoopState)
    (hinv : LoopInv max_conns s)
    (hflag : accept_new_flag max_conns env s = false)
    (hmono : env.shutdown = true → env2.shutdown = true)
    (hit : loop_iter max_conns server env s = .next s2) :
    accept_new_flag max_conns env2 s2 = false := by
  unfold accept_new_flag at hflag ⊢
  cases hs1 : env.shutdown with
  | true =>
    rw [hmono hs1, Bool.not_true, Bool.and_false]
  | false =>
    rw [hs1, Bool.not_false, Bool.and_true] at hflag
    have hnm : s.num_connected_clients = max_conns := by
      simpa using hflag
    have hmon := loop_iter_next_num max_conns server env s s2 hit
    have hinv2 := loop_iter_inv max_conns server env s s2 hinv (Or.inl hit)
    have hle := hinv2.2.1
    have heq : s2.num_connected_clients = max_conns := by omega
    rw [heq, bne_self_eq_false, Bool.false_and]

/-- Per-iteration trace of the admission predicate
`accept_new_connections` along a run of the event loop driven by the
given successive environments; the trace stops when the loop exits or
aborts. -/
def loop_accept_flags (max_conns : Nat) (server : FILESHARE_SERVER) :
    List PollEnv → LoopState → List Bool
  | [], _ => []
  | env :: rest, s =>
    accept_new_flag max_conns env s ::
      (match loop_iter max_conns server env s with
       | .next s2 => loop_accept_flags max_conns server rest s2
       | .brk _ => []
       | .fatal => [])

lemma flags_all_false (max_conns : Nat) (server : FILESHARE_SERVER) :
    ∀ (envs : List PollEnv) (s : LoopState),
    LoopInv max_conns s →
    List.Pairwise (fun e e2 : PollEnv => e.shutdown = true → e2.shutdown = true) envs →
    (match envs with
     | [] => True
     | e :: _ => accept_new_flag max_conns e s = false) →
    ∀ b ∈ loop_accept_flags max_conns server envs s, b = false := by
  intro envs
  induction envs with
  | nil =>
    intro s _ _ _ b hb
    simp [loop_accept_flags] at hb
  | cons e rest ih =>
    intro s hinv hpw hfirst b hb
    dsimp only at hfirst
    rw [loop_accept_flags] at hb
    rcases List.mem_cons.mp hb with rfl | hb2
    · exact hfirst
    · cases hit : loop_iter max_conns server e s with
      | brk s2 =>
        rw [hit] at hb2
        simp at hb2
      | fatal =>
        rw [hit] at hb2
        simp at hb2
      | next s2 =>
        rw [hit] at hb2
        dsimp only at hb2
        refine ih s2 (loop_iter_inv max_conns server e s s2 hinv (Or.inl hit))
          (List.pairwise_cons.mp hpw).2 ?_ b hb2
        cases rest with
        | nil => trivial
        | cons e2 rest2 =>
          exact accept_flag_step max_conns server e e2 s s2 hinv hfirst
            ((List.pairwise_cons.mp hpw).1 e2 (List.mem_cons_self e2 rest2)) hit

/-- C10.  The admission predicate is monotonically non-increasing
across iterations: the shutdown flag is only ever stored `true` by the
handler and never cleared, the admitted count never decreases, one
iteration preserves falseness of the predicate, and along any run
driven by environments whose shutdown readings are monotone the trace
of predicate values never goes back from `false` to `true`. -/
theorem C10_admission_monotone (max_conns : Nat) (server : FILESHARE_SERVER) :
    (∀ b : Bool, sigint_handler b = true ∧
      program_in_shutdown (sigint_handler b) = true) ∧
    (∀ (env : PollEnv) (s s2 : LoopState),
      loop_iter max_conns server env s = .next s2 →
      s.num_connected_clients ≤ s2.num_connected_clients) ∧
    (∀ (env env2 : PollEnv) (s s2 : LoopState), LoopInv max_conns s →
      accept_new_flag max_conns env s = false →
      (env.shutdown = true → env2.shutdown = true) →
      loop_iter max_conns server env s = .next s2 →
      accept_new_flag max_conns env2 s2 = false) ∧
    (∀ (envs : List PollEnv) (s : LoopState), LoopInv max_conns s →
      List.Chain' (fun e e2 : PollEnv => e.shutdown = true → e2.shutdown = true) envs →
      List.Pairwise (fun a b : Bool => b = true → a = true)
        (loop_accept_flags max_conns server envs s)) := by
  refine ⟨fun b => ⟨rfl, rfl⟩, ?_, ?_, ?_⟩
  · exact fun env s s2 h => loop_iter_next_num max_conns server env s s2 h
  · exact fun env env2 s s2 hinv hflag hmono hit =>
      accept_flag_step max_conns server env env2 s s2 hinv hflag hmono hit
  · intro envs s hinv hchain
    letI : IsTrans PollEnv (fun e e2 : PollEnv => e.shutdown = true → e2.shutdown = true) :=
      ⟨fun _ _ _ hab hbc h => hbc (hab h)⟩
    have hpw := List.chain'_iff_pairwise.mp hchain
    clear hchain
    induction envs generalizing s with
    | nil => simp [loop_accept_flags]
    | cons e rest ih =>
      rw [loop_accept_flags]
      rw [List.pairwise_cons]
      constructor
      · intro b hb hbtrue
        cases hflag : accept_new_flag max_conns e s with
        | true => rfl
        | false =>
          exfalso
          cases hit : loop_iter max_conns server e s with
          | brk s2 => rw [hit] at hb; simp at hb
          | fatal => rw [hit] at hb; simp at hb
          | next s2 =>
            rw [hit] at hb
            dsimp only at hb
            have hbf := flags_all_false max_conns server rest s2
              (loop_iter_inv max_conns server e s s2 hinv (Or.inl hit))
              (List.pairwise_cons.mp hpw).2
              (by
                cases rest with
                | nil => trivial
                | cons e2 rest2 =>
                  exact accept_flag_step max_conns server e e2 s s2 hinv hflag
                    ((List.pairwise_cons.mp hpw).1 e2 (List.mem_cons_self e2 rest2)) hit)
              b hb
            rw [hbf] at hbtrue
            cases hbtrue
      · cases hit : loop_iter max_conns server e s with
        | brk s2 => simp
        | fatal => simp
        | next s2 =>
          dsimp only
          exact ih s2 (loop_iter_inv max_conns server e s s2 hinv (Or.inl hit))
            (List.pairwise_cons.mp hpw).2

/-- C10, witness: two idle-shutdown iterations from the initial state
under N = 1. -/
theorem C10_admission_monotone_witness :
    List.Pairwise (fun a b : Bool => b = true → a = true)
      (loop_accept_flags 1 ⟨[], 0, 0⟩ [env_idle, env_idle] (init_loop_state 1)) :=
  (C10_admission_monotone 1 ⟨[], 0, 0⟩).2.2.2 [env_idle, env_idle] (init_loop_state 1)
    (loop_inv_init 1)
    (List.chain'_pair.mpr (fun h => h))
